import Mathlib

/-!
Shallow embedding of `schedule.py` (pipeline-parallel 1F1B training schedule
with an auxiliary memory-budgeted offload subsystem), together with proofs
about the claims of the specification.

Modelling conventions:
* Python ints are `Int`; `//` and `%` on nonnegative operands coincide with
  Lean's `Int` `/` and `%` (Euclidean), which also match Python on the one
  negative case exercised (`(rank - 1) % world_size`).
* Tensors are opaque: a tensor is represented by a `Nat` tag allocated from a
  fresh-name counter (mirroring `torch.empty` / `torch.empty_like`
  allocations); the only observable attribute used by the code is the element
  count `numel`, carried separately where the offload subsystem needs it.
* The external collaborators (model, loss function, data iterator, transport,
  device runtime) are abstracted per the spec: the data iterator together with
  the loss function is a stream `dataLoss : Nat -> Rat` giving the scalar value
  `loss_func(output_i, label_i)` for the i-th item pulled; transport calls
  perform no observable local state change beyond their allocations.
* Module-level mutable globals (`logging_buffer`, `logged_size_in_bytes`) and
  the schedule's local state are threaded explicitly through a state type
  `St`.  `schedule.py` initialises the globals to `[]` / `0` at import time.
* Fallible constructs return `Except Err`: the Python `TypeError` raised by
  the zero-argument call `recv_backward()` at schedule.py:241, the
  `assert` in `forward_step`, `list.pop(0)` on an empty list, and (fuel
  exhaustion standing for) a non-terminating `logging()` loop.
* Each communication/step operation appends one entry `(event, state after)`
  to a trace; the states recorded in the trace are the observation
  boundaries between operations.  The two adjacent `append` calls
  (schedule.py:226-227, 245-246) and the two adjacent `pop(0)` calls
  (schedule.py:248-249, 261-262) have no operation between them and are
  recorded as a single paired push / paired pop.  The fields `pushed` and
  `popped` of `St` are ghost instrumentation recording the history of paired
  pushes and pops; they influence no behaviour.
-/

/-- Configuration object (`_GLOBAL_ARGS`): the configuration surface consumed
by `schedule.py` (`global_batch_size`, `micro_batch_size`, `logging`,
`local_world_size`). -/
structure Args where
  global_batch_size : Int
  micro_batch_size : Int
  logging : Bool
  local_world_size : Int
deriving DecidableEq

/-- Process-group topology as consumed from `torch.distributed`
(`get_rank`, `get_world_size`) plus the configuration object. -/
structure Config where
  world_size : Int
  rank : Int
  args : Args
deriving DecidableEq

/-- schedule.py:24-25. -/
def get_pipeline_model_parallel_world_size (cfg : Config) : Int :=
  cfg.world_size

/-- schedule.py:28-29. -/
def get_pipeline_model_parallel_rank (cfg : Config) : Int :=
  cfg.rank

/-- schedule.py:15-17. -/
def is_pipeline_last_stage (cfg : Config) : Bool :=
  get_pipeline_model_parallel_rank cfg ==
    get_pipeline_model_parallel_world_size cfg - 1

/-- schedule.py:20-21. -/
def is_pipeline_first_stage (cfg : Config) : Bool :=
  get_pipeline_model_parallel_rank cfg == 0

/-- schedule.py:32-34. -/
def get_pipeline_model_parallel_next_rank (cfg : Config) : Int :=
  (get_pipeline_model_parallel_rank cfg + 1) %
    get_pipeline_model_parallel_world_size cfg

/-- schedule.py:37-39. -/
def get_pipeline_model_parallel_prev_rank (cfg : Config) : Int :=
  (get_pipeline_model_parallel_rank cfg - 1) %
    get_pipeline_model_parallel_world_size cfg

/-- schedule.py:42-44: `global_batch_size // micro_batch_size` (Python floor
division; no divisibility check appears in the source). -/
def get_num_microbatches (args : Args) : Int :=
  args.global_batch_size / args.micro_batch_size

/-- schedule.py:47-49. -/
def get_microbatch_size (args : Args) : Int :=
  args.micro_batch_size

/-- schedule.py:52-61. -/
def should_logging (cfg : Config) (dst_rank : Int) : Bool :=
  if !cfg.args.logging then false
  else
    let src_rank := get_pipeline_model_parallel_rank cfg
    let src_node := src_rank / cfg.args.local_world_size
    let dst_node := dst_rank / cfg.args.local_world_size
    if src_node == dst_node then false else true

/-- The module-level mutable offload state of schedule.py:4-5:
`logging_buffer` (kept as the list of element counts of the buffered
tensors, the only attribute the code reads) and `logged_size_in_bytes`. -/
structure LogState where
  logging_buffer : List Nat
  logged_size_in_bytes : Nat
deriving DecidableEq

/-- schedule.py:6: `1 * 1000 * 1000 * 1000`. -/
def memory_budget : Nat := 1 * 1000 * 1000 * 1000

/-- The byte size the spec ascribes to the buffer: sum of
`element_count * 4` over the buffered tensors. -/
def buffer_byte_sum (s : LogState) : Nat :=
  (s.logging_buffer.map (fun numel => numel * 4)).sum

/-- schedule.py:117-119: appends to `logging_buffer`; the byte counter is not
touched here. -/
def add_to_logging_buffer (numel : Nat) (s : LogState) : LogState :=
  { s with logging_buffer := s.logging_buffer ++ [numel] }

/-- One iteration of the `for tensor in logging_buffer` loop body of
schedule.py:102-112, processing the element at position `i`: make a host copy
of the same element count, append it to the same list being iterated,
increase the byte counter by `numel * 4`, and on overflow clear the buffer
and reset the counter.  `budget` is the value of the global
`memory_budget`. -/
def logging_iteration (budget : Nat) (i : Nat) (s : LogState) : LogState :=
  let numel := s.logging_buffer.getD i 0
  let s1 : LogState :=
    { logging_buffer := s.logging_buffer ++ [numel]
      logged_size_in_bytes := s.logged_size_in_bytes + numel * 4 }
  if budget < s1.logged_size_in_bytes then
    { logging_buffer := [], logged_size_in_bytes := 0 }
  else s1

/-- The `for tensor in logging_buffer` loop of schedule.py:102-112: a CPython
list iterator keeps an index and re-checks it against the current length, so
the appends performed by the body extend the iteration and a mid-loop
`clear` ends it.  `fuel` bounds the number of iterations (the loop has no
intrinsic termination guarantee); `none` means the fuel was exhausted. -/
def logging_loop (budget : Nat) : Nat → Nat → LogState → Option LogState
  | 0, _, _ => none
  | fuel + 1, i, s =>
    if i < s.logging_buffer.length then
      logging_loop budget fuel (i + 1) (logging_iteration budget i s)
    else
      some s

/-- schedule.py:97-114 (`logging`): run the copy loop, then unconditionally
clear the buffer (line 114; the byte counter is not reset there). -/
def logging_run (budget : Nat) (fuel : Nat) (s : LogState) : Option LogState :=
  (logging_loop budget fuel 0 s).map
    fun s1 => { s1 with logging_buffer := [] }

/-- The attributes of the external model consumed by the scheduler
(schedule.py:221, 264 use `model.input_shape` / `model.output_shape` to
size receive buffers; only the element counts are observable here). -/
structure ModelInfo where
  input_numel : Nat
  output_numel : Nat
deriving DecidableEq

/-- Events recorded at observation boundaries: one per executed operation of
the schedule. -/
inductive Ev where
  | recvForward
  | forwardStep
  | sendForward
  | pushPair (inp : Option Nat) (out : Nat)
  | popPair (inp : Option Nat) (out : Nat)
  | flush
  | recvBackward
  | sendForwardRecvBackward
  | backwardStep
  | sendBackward
  | sendBackwardRecvForward
deriving DecidableEq

/-- Abrupt terminations of the Python code. -/
inductive Err where
  /-- schedule.py:241 calls `recv_backward()` without the required positional
  argument `shape` (schedule.py:150): `TypeError` at the call. -/
  | missingShapeArgument
  /-- The `assert input_tensor is None` of schedule.py:71. -/
  | assertionFailed
  /-- `list.pop(0)` on an empty list: `IndexError`. -/
  | popFromEmpty
  /-- Fuel exhausted inside the `logging()` loop (standing for
  non-termination of schedule.py:102-112). -/
  | flushDiverged
deriving DecidableEq

/-- Full mutable state threaded through one `pipedream_flush_schedule` call:
the local queues and loss accumulator (schedule.py:215-217), the module-level
offload globals, the data-iterator position, a fresh-tag counter for tensor
allocations, and the ghost push/pop histories. -/
structure St where
  input_tensors : List (Option Nat)
  output_tensors : List Nat
  loss : Rat
  log : LogState
  pos : Nat
  fresh : Nat
  pushed : List (Option Nat × Nat)
  popped : List (Option Nat × Nat)
deriving DecidableEq

/-- The module state at import time (schedule.py:4-5) together with a fresh
scheduler state. -/
def initSt : St :=
  { input_tensors := []
    output_tensors := []
    loss := 0
    log := { logging_buffer := [], logged_size_in_bytes := 0 }
    pos := 0
    fresh := 0
    pushed := []
    popped := [] }

/-- A trace: the events performed, each with the state right after it (the
observation boundaries). -/
abbrev Trace := List (Ev × St)

/-- State-and-trace monad for the schedule: a computation consumes a state
and yields the trace of performed operations together with either an error
(the trace kept is the prefix up to the error) or a result and final state. -/
def M (α : Type) : Type :=
  St → Trace × Except Err (α × St)

instance : Monad M where
  pure a := fun st => ([], Except.ok (a, st))
  bind x f := fun st =>
    match x st with
    | (tr, Except.error e) => (tr, Except.error e)
    | (tr, Except.ok (a, st1)) =>
      match f a st1 with
      | (tr2, r) => (tr ++ tr2, r)

/-- Raise a Python exception. -/
def raiseErr {α : Type} (e : Err) : M α :=
  fun _ => ([], Except.error e)

/-- schedule.py:140-147 (`recv_forward`): every stage except the first
allocates a fresh gradient-tracked buffer and receives into it; the first
stage returns `None`. -/
def recv_forward (cfg : Config) : M (Option Nat) :=
  fun st =>
    if is_pipeline_first_stage cfg then
      ([(Ev.recvForward, st)], Except.ok (none, st))
    else
      let t := st.fresh
      let st1 := { st with fresh := t + 1 }
      ([(Ev.recvForward, st1)], Except.ok (some t, st1))

/-- schedule.py:64-81 (`forward_step`): first/last stages pull one item from
the data iterator; the first stage asserts that the incoming activation is
absent and substitutes the freshly loaded batch; every stage runs the model
(a fresh output tensor); the last stage applies the loss function, divides by
`get_num_microbatches()` in place and accumulates the scalar into the running
loss.  `dataLoss st.pos` is the scalar `loss_func(model(images), labels)`
the externals produce for the item at iterator position `st.pos`. -/
def forward_step (cfg : Config) (dataLoss : Nat → Rat)
    (input_tensor : Option Nat) : M Nat :=
  fun st =>
    if is_pipeline_first_stage cfg && input_tensor.isSome then
      ([], Except.error Err.assertionFailed)
    else
      let pulls := is_pipeline_first_stage cfg || is_pipeline_last_stage cfg
      let v := dataLoss st.pos
      let st1 := if pulls then { st with pos := st.pos + 1 } else st
      let out := st1.fresh
      let st2 := { st1 with fresh := out + 1 }
      let st3 :=
        if is_pipeline_last_stage cfg then
          { st2 with loss := st2.loss + v / ((get_num_microbatches cfg.args : Int) : Rat) }
        else st2
      ([(Ev.forwardStep, st3)], Except.ok (out, st3))

/-- schedule.py:84-94 (`backward_step`): triggers the external autodiff
engine; returns the gradient on the input activation (a fresh tensor) or
`None` when there is no input activation. -/
def backward_step (input_tensor : Option Nat) (output_tensor : Nat)
    (output_tensor_grad : Option Nat) : M (Option Nat) :=
  fun st =>
    match input_tensor with
    | none => ([(Ev.backwardStep, st)], Except.ok (none, st))
    | some _ =>
      let g := st.fresh
      let st1 := { st with fresh := g + 1 }
      ([(Ev.backwardStep, st1)], Except.ok (some g, st1))

/-- schedule.py:122-128 (`send_forward`): every stage except the last stages
the output tensor for offload when `should_logging(next_rank)` and sends it
downstream.  For a non-last stage the tensor sent is the model output, of
element count `model.output_numel`. -/
def send_forward (cfg : Config) (model : ModelInfo)
    (output_tensor : Nat) : M Unit :=
  fun st =>
    if !is_pipeline_last_stage cfg then
      let st1 :=
        if should_logging cfg (get_pipeline_model_parallel_next_rank cfg) then
          { st with log := add_to_logging_buffer model.output_numel st.log }
        else st
      ([(Ev.sendForward, st1)], Except.ok ((), st1))
    else
      ([(Ev.sendForward, st)], Except.ok ((), st))

/-- schedule.py:131-137 (`send_backward`): every stage except the first
stages the input gradient for offload when `should_logging(prev_rank)` and
sends it upstream; the gradient has the element count of the stage input,
`model.input_numel`. -/
def send_backward (cfg : Config) (model : ModelInfo)
    (input_tensor_grad : Option Nat) : M Unit :=
  fun st =>
    if !is_pipeline_first_stage cfg then
      let st1 :=
        if should_logging cfg (get_pipeline_model_parallel_prev_rank cfg) then
          { st with log := add_to_logging_buffer model.input_numel st.log }
        else st
      ([(Ev.sendBackward, st1)], Except.ok ((), st1))
    else
      ([(Ev.sendBackward, st)], Except.ok ((), st))

/-- schedule.py:150-161 (`recv_backward`, the two-argument function): every
stage except the last first drains the offload buffer if it is non-empty
(`if logging_buffer: logging()`), then allocates a fresh gradient-tracked
buffer of the given shape and receives the upstream gradient into it; the
last stage returns `None`. -/
def recv_backward (cfg : Config) (flushFuel : Nat)
    (shape_numel : Nat) : M (Option Nat) :=
  fun st =>
    if !is_pipeline_last_stage cfg then
      if st.log.logging_buffer.isEmpty then
        let g := st.fresh
        let st1 := { st with fresh := g + 1 }
        ([(Ev.recvBackward, st1)], Except.ok (some g, st1))
      else
        match logging_run memory_budget flushFuel st.log with
        | none => ([], Except.error Err.flushDiverged)
        | some l =>
          let st1 := { st with log := l }
          let g := st1.fresh
          let st2 := { st1 with fresh := g + 1 }
          ([(Ev.flush, st1), (Ev.recvBackward, st2)], Except.ok (some g, st2))
    else
      ([(Ev.recvBackward, st)], Except.ok (none, st))

/-- schedule.py:164-182 (`send_forward_recv_backward`): every stage except
the last stages the output for offload when `should_logging(next_rank)`,
allocates the gradient receive buffer (`empty_like(output_tensor)`), issues
the batched isend/irecv pair and waits; the last stage returns `None`. -/
def send_forward_recv_backward (cfg : Config) (model : ModelInfo)
    (output_tensor : Nat) : M (Option Nat) :=
  fun st =>
    if !is_pipeline_last_stage cfg then
      let st1 :=
        if should_logging cfg (get_pipeline_model_parallel_next_rank cfg) then
          { st with log := add_to_logging_buffer model.output_numel st.log }
        else st
      let g := st1.fresh
      let st2 := { st1 with fresh := g + 1 }
      ([(Ev.sendForwardRecvBackward, st2)], Except.ok (some g, st2))
    else
      ([(Ev.sendForwardRecvBackward, st)], Except.ok (none, st))

/-- schedule.py:185-203 (`send_backward_recv_forward`): every stage except
the first stages the input gradient for offload when
`should_logging(prev_rank)`, allocates the activation receive buffer, issues
the batched isend/irecv pair and waits; the first stage returns `None`. -/
def send_backward_recv_forward (cfg : Config) (model : ModelInfo)
    (input_tensor_grad : Option Nat) : M (Option Nat) :=
  fun st =>
    if !is_pipeline_first_stage cfg then
      let st1 :=
        if should_logging cfg (get_pipeline_model_parallel_prev_rank cfg) then
          { st with log := add_to_logging_buffer model.input_numel st.log }
        else st
      let g := st1.fresh
      let st2 := { st1 with fresh := g + 1 }
      ([(Ev.sendBackwardRecvForward, st2)], Except.ok (some g, st2))
    else
      ([(Ev.sendBackwardRecvForward, st)], Except.ok (none, st))

/-- schedule.py:215-217: `input_tensors = []`, `output_tensors = []`,
`loss = torch.tensor(0.0)` — fresh locals for this schedule call (the ghost
histories are reset with them). -/
def init_step_state : M Unit :=
  fun st =>
    ([], Except.ok ((),
      { st with input_tensors := [], output_tensors := [], loss := 0,
                pushed := [], popped := [] }))

/-- The paired pushes schedule.py:226-227 / 245-246: two adjacent `append`
calls with no operation between them, recorded as one paired push (and in
the ghost push history). -/
def pushPair (inp : Option Nat) (out : Nat) : M Unit :=
  fun st =>
    let st1 :=
      { st with input_tensors := st.input_tensors ++ [inp],
                output_tensors := st.output_tensors ++ [out],
                pushed := st.pushed ++ [(inp, out)] }
    ([(Ev.pushPair inp out, st1)], Except.ok ((), st1))

/-- The paired pops schedule.py:248-249 / 261-262: two adjacent `pop(0)`
calls with no operation between them, recorded as one paired pop (and in the
ghost pop history); `pop(0)` on an empty list raises `IndexError`. -/
def popPair : M (Option Nat × Nat) :=
  fun st =>
    match st.input_tensors, st.output_tensors with
    | inp :: is1, out :: os1 =>
      let st1 :=
        { st with input_tensors := is1, output_tensors := os1,
                  popped := st.popped ++ [(inp, out)] }
      ([(Ev.popPair inp out, st1)], Except.ok ((inp, out), st1))
    | _, _ => ([], Except.error Err.popFromEmpty)

/-- schedule.py:271-272: `if logging_buffer: logging()` at the end of the
step. -/
def final_logging_flush (flushFuel : Nat) : M Unit :=
  fun st =>
    if st.log.logging_buffer.isEmpty then
      ([], Except.ok ((), st))
    else
      match logging_run memory_budget flushFuel st.log with
      | none => ([], Except.error Err.flushDiverged)
      | some l =>
        let st1 := { st with log := l }
        ([(Ev.flush, st1)], Except.ok ((), st1))

/-- schedule.py:274: `return loss.item()`. -/
def return_loss : M Rat :=
  fun st => ([], Except.ok (st.loss, st))

/-- schedule.py:210-211: `num_warmup_microbatches` as computed by the
schedule. -/
def num_warmup_microbatches (world_size rank : Int) : Int :=
  world_size - rank - 1

/-- schedule.py:212-213. -/
def num_microbatches_remaining (cfg : Config) : Int :=
  get_num_microbatches cfg.args -
    num_warmup_microbatches (get_pipeline_model_parallel_world_size cfg)
      (get_pipeline_model_parallel_rank cfg)

/-- The warm-up loop schedule.py:220-227: receive-forward, forward-step,
send-forward, then push the (activation, output) pair. -/
def warmupLoop (cfg : Config) (model : ModelInfo)
    (dataLoss : Nat → Rat) : Nat → M Unit
  | 0 => pure ()
  | k + 1 => do
    let input_tensor ← recv_forward cfg
    let output_tensor ← forward_step cfg dataLoss input_tensor
    send_forward cfg model output_tensor
    pushPair input_tensor output_tensor
    warmupLoop cfg model dataLoss k

/-- The 1F1B steady-state loop schedule.py:233-257 (`for i in range(n)` with
`n = num_microbatches_remaining`; `k` counts the iterations still to run, so
the loop is entered with `k = n`, `i = 0`).  On the first iteration the code
performs a plain `send_forward` and then calls `recv_backward()` with no
argument, although `shape` (schedule.py:150) has no default: Python raises
`TypeError` at that call, before any receive can happen. -/
def steadyLoop (cfg : Config) (model : ModelInfo) (dataLoss : Nat → Rat)
    (flushFuel : Nat) (n : Nat) : Nat → Nat → Option Nat → M Unit
  | 0, _, _ => pure ()
  | k + 1, i, input_tensor => do
    let first_iteration := i == 0
    let last_iteration := i == n - 1
    let output_tensor ← forward_step cfg dataLoss input_tensor
    let output_tensor_grad ←
      if first_iteration then do
        send_forward cfg model output_tensor
        -- schedule.py:241: `recv_backward()` — TypeError, missing `shape`
        (raiseErr Err.missingShapeArgument : M (Option Nat))
      else
        send_forward_recv_backward cfg model output_tensor
    pushPair input_tensor output_tensor
    let popRes ← popPair
    let input_tensor_grad ← backward_step popRes.1 popRes.2 output_tensor_grad
    let next_input ←
      if last_iteration then do
        send_backward cfg model input_tensor_grad
        pure popRes.1
      else
        send_backward_recv_forward cfg model input_tensor_grad
    steadyLoop cfg model dataLoss flushFuel n k (i + 1) next_input

/-- The cooldown loop schedule.py:260-269: pop the oldest pending pair,
receive-backward (with `model.output_shape`), backward-step, send-backward. -/
def cooldownLoop (cfg : Config) (model : ModelInfo)
    (flushFuel : Nat) : Nat → M Unit
  | 0 => pure ()
  | k + 1 => do
    let popRes ← popPair
    let output_tensor_grad ← recv_backward cfg flushFuel model.output_numel
    let input_tensor_grad ← backward_step popRes.1 popRes.2 output_tensor_grad
    send_backward cfg model input_tensor_grad
    cooldownLoop cfg model flushFuel k

/-- schedule.py:206-274 (`pipedream_flush_schedule`). -/
def pipedream_flush_schedule (cfg : Config) (model : ModelInfo)
    (dataLoss : Nat → Rat) (flushFuel : Nat) : M Rat := do
  let num_microbatches := get_num_microbatches cfg.args
  let nwm := num_warmup_microbatches (get_pipeline_model_parallel_world_size cfg)
    (get_pipeline_model_parallel_rank cfg)
  let remaining := num_microbatches - nwm
  init_step_state
  warmupLoop cfg model dataLoss nwm.toNat
  -- schedule.py:229-230: the guard is `num_microbatches > 0`, not
  -- `num_microbatches_remaining > 0`.  (When the guard is false Python
  -- leaves `input_tensor` unbound; it is then only read if the steady loop
  -- runs, which under `0 <= rank < world_size` cannot happen with
  -- `num_microbatches <= 0`.)
  let input_tensor ← if num_microbatches > 0 then recv_forward cfg else pure none
  steadyLoop cfg model dataLoss flushFuel remaining.toNat remaining.toNat 0 input_tensor
  cooldownLoop cfg model flushFuel nwm.toNat
  final_logging_flush flushFuel
  return_loss

/-- One full schedule call from the import-time module state. -/
def run_schedule (cfg : Config) (model : ModelInfo)
    (dataLoss : Nat → Rat) (flushFuel : Nat) : Trace × Except Err (Rat × St) :=
  pipedream_flush_schedule cfg model dataLoss flushFuel initSt

/-- Number of receive-forward operations in a trace. -/
def countRecvForward (tr : Trace) : Nat :=
  tr.countP fun p => p.1 == Ev.recvForward

/-- Number of paired pushes in a trace. -/
def countPushPair (tr : Trace) : Nat :=
  tr.countP fun p =>
    match p.1 with
    | Ev.pushPair _ _ => true
    | _ => false

/-- The boundary state right after the first warm-up receive in the
`world_size=4, rank=2, global_batch_size=8, micro_batch_size=2` scenario,
used by concrete witnesses. -/
def witnessSt : St :=
  { input_tensors := [], output_tensors := [], loss := 0, log := ⟨[], 0⟩,
    pos := 0, fresh := 1, pushed := [], popped := [] }

/-- Frame relation: the two in-flight queues and the ghost push/pop
histories are untouched. -/
def FrameQL (st st' : St) : Prop :=
  st'.input_tensors = st.input_tensors ∧
  st'.output_tensors = st.output_tensors ∧
  st'.pushed = st.pushed ∧
  st'.popped = st.popped

/-- The effect any single communication operation can have on the offload
globals: the byte counter is preserved or reset to 0, and with offload
disabled the buffer is preserved or cleared. -/
def LogStep (cfg : Config) (l l' : LogState) : Prop :=
  (l'.logged_size_in_bytes = l.logged_size_in_bytes ∨
    l'.logged_size_in_bytes = 0) ∧
  (cfg.args.logging = false →
    l'.logging_buffer = l.logging_buffer ∨ l'.logging_buffer = [])

/-- What every communication operation guarantees between its entry state
and any state it exposes: queues and ghost histories untouched, the running
loss untouched, and a `LogStep` on the offload globals. -/
def CommFact (cfg : Config) (st st' : St) : Prop :=
  FrameQL st st' ∧ st'.loss = st.loss ∧ LogStep cfg st.log st'.log

/-- Relational analogue of `MPreserves`: every boundary state recorded by
`x` and its final state stand in relation `R` to the entry state. -/
def MStep (R : St → St → Prop) {α : Type} (x : M α) : Prop :=
  ∀ st,
    (∀ q ∈ (x st).1, R st q.2) ∧
    (∀ a st1, (x st).2 = Except.ok (a, st1) → R st st1)

/-- `x` never performs a receive-forward operation. -/
def NoRecvForward {α : Type} (x : M α) : Prop :=
  ∀ st, ∀ q ∈ (x st).1, q.1 ≠ Ev.recvForward

/-- `P` holds at every observation boundary `x` records and at its final
state, whenever it holds at the entry state. -/
def MPreserves (P : St → Prop) {α : Type} (x : M α) : Prop :=
  ∀ st, P st →
    (∀ q ∈ (x st).1, P q.2) ∧
    (∀ a st1, (x st).2 = Except.ok (a, st1) → P st1)

/-- The conjunction of boundary invariants of the schedule state: the two
in-flight queues have equal length; the ghost push history equals the ghost
pop history followed by the still-pending pairs (so pops always removed the
oldest pending pair, in push order); the offload byte counter is 0 (it is
only ever moved inside `logging`, which always ends with it reset); and with
offload disabled the offload buffer is empty. -/
def BoundaryInv (cfg : Config) (st : St) : Prop :=
  st.input_tensors.length = st.output_tensors.length ∧
  st.pushed = st.popped ++ st.input_tensors.zip st.output_tensors ∧
  st.log.logged_size_in_bytes = 0 ∧
  (cfg.args.logging = false → st.log.logging_buffer = [])

theorem M_bind_apply {α β : Type} (x : M α) (f : α → M β) (st : St) :
    (x >>= f) st =
      match x st with
      | (tr, Except.error e) => (tr, Except.error e)
      | (tr, Except.ok (a, st1)) =>
        match f a st1 with
        | (tr2, r) => (tr ++ tr2, r) := rfl

theorem M_pure_apply {α : Type} (a : α) (st : St) :
    (pure a : M α) st = ([], Except.ok (a, st)) := rfl

/-- C4: for every valid configuration with `0 <= rank < world_size`, the
warm-up microbatch count computed at schedule.py:210-211 equals
`world_size - rank - 1` (in particular it is nonnegative), equals
`world_size - 1` at rank 0 and `0` at rank `world_size - 1`. -/
theorem claim_C4 (world_size rank : Int) (h0 : 0 ≤ rank) (h1 : rank < world_size) :
    num_warmup_microbatches world_size rank = world_size - rank - 1 ∧
    0 ≤ num_warmup_microbatches world_size rank ∧
    num_warmup_microbatches world_size 0 = world_size - 1 ∧
    num_warmup_microbatches world_size (world_size - 1) = 0 :=
  ⟨rfl, by unfold num_warmup_microbatches; omega,
   by unfold num_warmup_microbatches; omega,
   by unfold num_warmup_microbatches; omega⟩

theorem claim_C4_witness :
    num_warmup_microbatches 4 2 = 4 - 2 - 1 ∧
    0 ≤ num_warmup_microbatches 4 2 ∧
    num_warmup_microbatches 4 0 = 4 - 1 ∧
    num_warmup_microbatches 4 (4 - 1) = 0 :=
  claim_C4 4 2 (by decide) (by decide)

/-- C7 (counterexample to the claim): with `global_batch_size = 7`,
`micro_batch_size = 2` — not evenly divisible — querying the microbatch
count does not fail: `get_num_microbatches` silently returns the floored
value 3. -/
theorem claim_C7_counterexample :
    ¬ ((2 : Int) ∣ 7) ∧ get_num_microbatches ⟨7, 2, false, 1⟩ = 3 := by
  exact ⟨by decide, rfl⟩

/-- C7 (amended): `get_num_microbatches` performs no divisibility check: it
always returns the floored quotient `global_batch_size // micro_batch_size`,
and on a non-divisible configuration that value differs from an exact
quotient (no error is surfaced). -/
theorem claim_C7 (args : Args) (hm : 0 < args.micro_batch_size)
    (hg : 0 ≤ args.global_batch_size) :
    args.micro_batch_size * get_num_microbatches args ≤ args.global_batch_size ∧
    args.global_batch_size <
      args.micro_batch_size * (get_num_microbatches args + 1) ∧
    (¬ args.micro_batch_size ∣ args.global_batch_size →
      args.micro_batch_size * get_num_microbatches args ≠ args.global_batch_size) := by
  have hdm := Int.ediv_add_emod args.global_batch_size args.micro_batch_size
  have h0 : 0 ≤ args.global_batch_size % args.micro_batch_size :=
    Int.emod_nonneg _ (by omega)
  have h1 : args.global_batch_size % args.micro_batch_size < args.micro_batch_size :=
    Int.emod_lt_of_pos _ hm
  have hdvd : args.micro_batch_size ∣ args.global_batch_size ↔
      args.global_batch_size % args.micro_batch_size = 0 :=
    Int.dvd_iff_emod_eq_zero
  have hexp : args.micro_batch_size *
        (args.global_batch_size / args.micro_batch_size + 1)
      = args.micro_batch_size *
          (args.global_batch_size / args.micro_batch_size)
        + args.micro_batch_size := by ring
  unfold get_num_microbatches
  constructor
  · omega
  constructor
  · omega
  · intro hnd
    rw [hdvd] at hnd
    omega

theorem claim_C7_witness :
    2 * get_num_microbatches ⟨7, 2, false, 1⟩ ≤ 7 ∧
    (7 : Int) < 2 * (get_num_microbatches ⟨7, 2, false, 1⟩ + 1) ∧
    (¬ (2 : Int) ∣ 7 → 2 * get_num_microbatches ⟨7, 2, false, 1⟩ ≠ 7) :=
  claim_C7 ⟨7, 2, false, 1⟩ (by decide) (by decide)

set_option maxHeartbeats 1000000 in
/-- C1 (code bug): in the end-to-end scenario `world_size=4`, `rank=2`,
`global_batch_size=8`, `micro_batch_size=2`, the schedule performs exactly
one warm-up forward (receive-forward, forward-step, send-forward, one paired
push), the priming receive-forward, and then — on the first steady-state
iteration — a forward-step and a plain send-forward, after which the
zero-argument call `recv_backward()` at schedule.py:241 raises `TypeError`
(the required `shape` parameter of schedule.py:150 is missing).  No gradient
buffer is allocated, no steady-state exchange and no cooldown backward ever
run, contradicting the claimed 3 steady iterations and 1 cooldown
backward. -/
theorem claim_C1 :
    (run_schedule ⟨4, 2, ⟨8, 2, false, 1⟩⟩ ⟨3, 5⟩ (fun _ => 0) 0).2 =
      Except.error Err.missingShapeArgument ∧
    (run_schedule ⟨4, 2, ⟨8, 2, false, 1⟩⟩ ⟨3, 5⟩ (fun _ => 0) 0).1.map Prod.fst =
      [Ev.recvForward, Ev.forwardStep, Ev.sendForward, Ev.pushPair (some 0) 1,
       Ev.recvForward, Ev.forwardStep, Ev.sendForward] := by
  constructor <;>
  · simp only [run_schedule, pipedream_flush_schedule, warmupLoop, steadyLoop, cooldownLoop,
      init_step_state, recv_forward, forward_step, send_forward, send_backward, recv_backward,
      send_forward_recv_backward, send_backward_recv_forward, pushPair, popPair,
      final_logging_flush, return_loss, raiseErr, M_bind_apply, M_pure_apply, initSt,
      is_pipeline_first_stage, is_pipeline_last_stage, get_pipeline_model_parallel_rank,
      get_pipeline_model_parallel_world_size, get_pipeline_model_parallel_next_rank,
      get_pipeline_model_parallel_prev_rank, should_logging, add_to_logging_buffer,
      get_num_microbatches, num_warmup_microbatches, num_microbatches_remaining,
      Int.reduceSub, Int.reduceAdd, Int.reduceToNat, Int.reduceDiv, Int.reduceBEq,
      Int.reduceLT, Nat.reduceAdd, Nat.reduceSub, Nat.reduceBEq, beq_iff_eq,
      reduceIte, Bool.not_true, Bool.not_false, Option.isSome, Bool.and_true, Bool.and_false,
      Bool.true_and, Bool.false_and, Bool.or_true, Bool.or_false, Bool.true_or, Bool.false_or,
      List.map_append, List.map_cons, List.map_nil, List.append_assoc, List.nil_append,
      List.append_nil, List.cons_append, List.singleton_append]
    rfl

set_option maxHeartbeats 1000000 in
/-- C6 (counterexample to the claim): with `world_size=4`, `rank=2`,
`global_batch_size=2`, `micro_batch_size=2` no microbatch remains after
warm-up (`num_microbatches_remaining = 0`), yet the schedule still issues
one receive-forward beyond the single warm-up receive: the guard at
schedule.py:229 tests `num_microbatches > 0`, not the remaining count. -/
theorem claim_C6_counterexample :
    num_microbatches_remaining ⟨4, 2, ⟨2, 2, false, 1⟩⟩ = 0 ∧
    countRecvForward (run_schedule ⟨4, 2, ⟨2, 2, false, 1⟩⟩ ⟨3, 5⟩ (fun _ => 0) 0).1 =
      (num_warmup_microbatches 4 2).toNat + 1 := by
  constructor
  · rfl
  · simp only [countRecvForward, run_schedule, pipedream_flush_schedule, warmupLoop,
      steadyLoop, cooldownLoop,
      init_step_state, recv_forward, forward_step, send_forward, send_backward, recv_backward,
      send_forward_recv_backward, send_backward_recv_forward, pushPair, popPair,
      final_logging_flush, return_loss, raiseErr, M_bind_apply, M_pure_apply, initSt,
      is_pipeline_first_stage, is_pipeline_last_stage, get_pipeline_model_parallel_rank,
      get_pipeline_model_parallel_world_size, get_pipeline_model_parallel_next_rank,
      get_pipeline_model_parallel_prev_rank, should_logging, add_to_logging_buffer,
      get_num_microbatches, num_warmup_microbatches, num_microbatches_remaining,
      Int.reduceSub, Int.reduceAdd, Int.reduceToNat, Int.reduceDiv, Int.reduceBEq,
      Int.reduceLT, Nat.reduceAdd, Nat.reduceSub, Nat.reduceBEq, beq_iff_eq,
      reduceIte, Bool.not_true, Bool.not_false, Option.isSome, Bool.and_true, Bool.and_false,
      Bool.true_and, Bool.false_and, Bool.or_true, Bool.or_false, Bool.true_or, Bool.false_or,
      List.map_append, List.map_cons, List.map_nil, List.append_assoc, List.nil_append,
      List.append_nil, List.cons_append, List.singleton_append]
    rfl

set_option maxHeartbeats 1000000 in
/-- C2 (counterexample to the claim): in a run with offload enabled
(`world_size=2`, `rank=0`, `local_world_size=1`, cross-node neighbour),
there is an observation boundary — right after the first `send_forward`
stages its output tensor via `add_to_logging_buffer`, which appends without
touching the byte counter — at which `logged_size_in_bytes` (0) differs from
the sum of buffered tensor byte sizes (`5 * 4 = 20`). -/
theorem claim_C2_counterexample :
    ¬ (∀ p ∈ (run_schedule ⟨2, 0, ⟨2, 2, true, 1⟩⟩ ⟨3, 5⟩ (fun _ => 0) 0).1,
        p.2.log.logged_size_in_bytes = buffer_byte_sum p.2.log) := by
  simp only [run_schedule, pipedream_flush_schedule, warmupLoop, steadyLoop, cooldownLoop,
    init_step_state, recv_forward, forward_step, send_forward, send_backward, recv_backward,
    send_forward_recv_backward, send_backward_recv_forward, pushPair, popPair,
    final_logging_flush, return_loss, raiseErr, M_bind_apply, M_pure_apply, initSt,
    is_pipeline_first_stage, is_pipeline_last_stage, get_pipeline_model_parallel_rank,
    get_pipeline_model_parallel_world_size, get_pipeline_model_parallel_next_rank,
    get_pipeline_model_parallel_prev_rank, should_logging, add_to_logging_buffer,
    get_num_microbatches, num_warmup_microbatches, num_microbatches_remaining,
    Int.reduceSub, Int.reduceAdd, Int.reduceToNat, Int.reduceDiv, Int.reduceBEq,
    Int.reduceLT, Nat.reduceAdd, Nat.reduceSub, Nat.reduceBEq, beq_iff_eq,
    reduceIte, Bool.not_true, Bool.not_false, Option.isSome, Bool.and_true, Bool.and_false,
    Bool.true_and, Bool.false_and, Bool.or_true, Bool.or_false, Bool.true_or, Bool.false_or,
    List.map_append, List.map_cons, List.map_nil, List.append_assoc, List.nil_append,
    List.append_nil, List.cons_append, List.singleton_append,
    buffer_byte_sum, List.sum_cons, List.sum_nil, Nat.reduceMul,
    List.forall_mem_cons, List.forall_mem_ne, List.not_mem_nil, logging_run, logging_loop,
    logging_iteration, List.isEmpty, List.length_cons, List.length_nil]
  norm_num

theorem logging_loop_terminal (budget : Nat) :
    ∀ (fuel i : Nat) (s s' : LogState),
      (s.logging_buffer.length ≤ i → s = ⟨[], 0⟩) →
      logging_loop budget fuel i s = some s' →
      s' = ⟨[], 0⟩ := by
  intro fuel
  induction fuel with
  | zero => intro i s s' _ h; simp [logging_loop] at h
  | succ fuel ih =>
    intro i s s' hR h
    rw [logging_loop] at h
    by_cases hi : i < s.logging_buffer.length
    · rw [if_pos hi] at h
      refine ih (i + 1) _ s' ?_ h
      intro hlen
      unfold logging_iteration at hlen ⊢
      by_cases hov : budget <
          s.logged_size_in_bytes + s.logging_buffer.getD i 0 * 4
      · simp only [List.length_append, if_pos hov] at hlen ⊢
      · simp only [if_neg hov] at hlen ⊢
        simp only [List.length_append, List.length_cons, List.length_nil] at hlen
        omega
    · rw [if_neg hi] at h
      have := hR (by omega)
      simp only [Option.some.injEq] at h
      rw [← h]; exact this

theorem logging_run_terminal (budget fuel : Nat) (s s' : LogState)
    (hne : s.logging_buffer ≠ []) (h : logging_run budget fuel s = some s') :
    s' = ⟨[], 0⟩ := by
  unfold logging_run at h
  rw [Option.map_eq_some'] at h
  obtain ⟨s1, hl, hs⟩ := h
  have hterm : s1 = ⟨[], 0⟩ := by
    refine logging_loop_terminal budget fuel 0 s s1 ?_ hl
    intro hlen
    have : s.logging_buffer = [] := List.length_eq_zero.mp (by omega)
    exact absurd this hne
  rw [← hs, hterm]

theorem M_bind_ok_inv {α β : Type} {x : M α} {f : α → M β} {st : St}
    {tr : Trace} {b : β} {st2 : St}
    (h : (x >>= f) st = (tr, Except.ok (b, st2))) :
    ∃ tr1 a st1 tr2, x st = (tr1, Except.ok (a, st1)) ∧
      f a st1 = (tr2, Except.ok (b, st2)) ∧ tr = tr1 ++ tr2 := by
  rw [M_bind_apply] at h
  rcases hx : x st with ⟨tr1, r⟩
  rw [hx] at h
  rcases r with e | ⟨a, st1⟩
  · simp at h
  · dsimp only at h
    rcases hf : f a st1 with ⟨tr2, r2⟩
    rw [hf] at h
    rcases r2 with e2 | ⟨b2, st3⟩
    · simp at h
    · simp only [Prod.mk.injEq, Except.ok.injEq] at h
      obtain ⟨h1, h2, h3⟩ := h
      exact ⟨tr1, a, st1, tr2, rfl, by rw [hf, h2, h3], h1.symm⟩

theorem M_bind_error_left {α β : Type} {x : M α} (f : α → M β) {st : St}
    {tr : Trace} {e : Err} (h : x st = (tr, Except.error e)) :
    (x >>= f) st = (tr, Except.error e) := by
  rw [M_bind_apply, h]

theorem M_bind_error_right {α β : Type} {x : M α} {f : α → M β} {st : St}
    {tr1 tr2 : Trace} {a : α} {st1 : St} {e : Err}
    (hx : x st = (tr1, Except.ok (a, st1)))
    (hf : f a st1 = (tr2, Except.error e)) :
    (x >>= f) st = (tr1 ++ tr2, Except.error e) := by
  rw [M_bind_apply, hx]
  dsimp only
  rw [hf]

theorem M_bind_ok {α β : Type} {x : M α} {f : α → M β} {st : St}
    {tr1 tr2 : Trace} {a : α} {st1 : St} {b : β} {st2 : St}
    (hx : x st = (tr1, Except.ok (a, st1)))
    (hf : f a st1 = (tr2, Except.ok (b, st2))) :
    (x >>= f) st = (tr1 ++ tr2, Except.ok (b, st2)) := by
  rw [M_bind_apply, hx]
  dsimp only
  rw [hf]

theorem CommFact_refl (cfg : Config) (st : St) : CommFact cfg st st :=
  ⟨⟨rfl, rfl, rfl, rfl⟩, rfl, Or.inl rfl, fun _ => Or.inl rfl⟩

theorem CommFact_trans {cfg : Config} {st1 st2 st3 : St}
    (h1 : CommFact cfg st1 st2) (h2 : CommFact cfg st2 st3) :
    CommFact cfg st1 st3 := by
  obtain ⟨⟨f1, f2, f3, f4⟩, hl1, hs1, hb1⟩ := h1
  obtain ⟨⟨g1, g2, g3, g4⟩, hl2, hs2, hb2⟩ := h2
  refine ⟨⟨g1.trans f1, g2.trans f2, g3.trans f3, g4.trans f4⟩, hl2.trans hl1, ?_, ?_⟩
  · rcases hs2 with h | h
    · rw [h]; exact hs1
    · exact Or.inr h
  · intro hlog
    rcases hb2 hlog with h | h
    · rw [h]; exact hb1 hlog
    · exact Or.inr h

theorem should_logging_of_not_logging {cfg : Config} (h : cfg.args.logging = false)
    (dst : Int) : should_logging cfg dst = false := by
  unfold should_logging
  rw [h]
  rfl

theorem MStep_pure {R : St → St → Prop} {α : Type} (a : α)
    (hrefl : ∀ st, R st st) : MStep R (pure a : M α) := by
  intro st
  constructor
  · intro q hq; simp [M_pure_apply] at hq
  · intro b st1 h
    simp only [M_pure_apply, Except.ok.injEq, Prod.mk.injEq] at h
    rw [← h.2]; exact hrefl st

theorem MStep_bind {R : St → St → Prop} {α β : Type} {x : M α} {f : α → M β}
    (htrans : ∀ {s1 s2 s3}, R s1 s2 → R s2 s3 → R s1 s3)
    (hx : MStep R x) (hf : ∀ a, MStep R (f a)) : MStep R (x >>= f) := by
  intro st
  constructor
  · intro q hq
    rcases he : x st with ⟨tr1, r⟩
    rcases r with e | ⟨a, st1⟩
    · rw [M_bind_error_left f he] at hq
      exact (hx st).1 q (by rw [he]; exact hq)
    · rcases hf2 : f a st1 with ⟨tr2, r2⟩
      have hR1 : R st st1 := (hx st).2 a st1 (by rw [he])
      have hmem : q ∈ tr1 ++ tr2 := by
        rcases r2 with e2 | ⟨b, st2⟩
        · rw [M_bind_error_right he hf2] at hq; exact hq
        · rw [M_bind_ok he hf2] at hq; exact hq
      rcases List.mem_append.mp hmem with hq1 | hq2
      · exact (hx st).1 q (by rw [he]; exact hq1)
      · exact htrans hR1 (((hf a) st1).1 q (by rw [hf2]; exact hq2))
  · intro b st2 h
    have hfull : (x >>= f) st = (((x >>= f) st).1, Except.ok (b, st2)) := by
      rw [← h]
    obtain ⟨tr1, a, st1, tr2, hx1, hf1, _⟩ := M_bind_ok_inv hfull
    have h1 : R st st1 := (hx st).2 a st1 (by rw [hx1])
    have h2 : R st1 st2 := ((hf a) st1).2 b st2 (by rw [hf1])
    exact htrans h1 h2

theorem CommFact_of_eq {cfg : Config} {st st1 : St}
    (h : st1 = st) : CommFact cfg st st1 := by
  rw [h]; exact CommFact_refl cfg st

theorem CommFact_of_fresh {cfg : Config} (st : St) (fr : Nat) :
    CommFact cfg st { st with fresh := fr } :=
  ⟨⟨rfl, rfl, rfl, rfl⟩, rfl, Or.inl rfl, fun _ => Or.inl rfl⟩

theorem CommFact_of_stage {cfg : Config} (st : St) (n : Nat)
    (hlog : cfg.args.logging = true) :
    CommFact cfg st { st with log := add_to_logging_buffer n st.log } := by
  refine ⟨⟨rfl, rfl, rfl, rfl⟩, rfl, Or.inl rfl, fun hfalse => ?_⟩
  rw [hlog] at hfalse
  exact absurd hfalse (by simp)

theorem MStep_single_event {R : St → St → Prop} {st st1 : St} (ev : Ev)
    {α : Type} (a : α) (hR : R st st1) :
    (∀ q ∈ ([(ev, st1)] : Trace), R st q.2) ∧
    (∀ b st2, (Except.ok (a, st1) : Except Err (α × St)) = Except.ok (b, st2) →
      R st st2) := by
  constructor
  · intro q hq
    simp only [List.mem_singleton] at hq
    rw [hq]
    exact hR
  · intro b st2 h
    have h2 : (a, st1) = (b, st2) := Except.ok.inj h
    have : st2 = st1 := (congrArg Prod.snd h2).symm
    rw [this]
    exact hR

theorem recv_forward_comm (cfg : Config) :
    MStep (CommFact cfg) (recv_forward cfg) := by
  intro st
  unfold recv_forward
  by_cases hf : is_pipeline_first_stage cfg = true
  · simp only [hf, if_true]
    exact MStep_single_event Ev.recvForward (none : Option Nat) (CommFact_refl cfg st)
  · simp only [hf, if_false]
    exact MStep_single_event Ev.recvForward (some st.fresh)
      (CommFact_of_fresh st (st.fresh + 1))

theorem send_forward_comm (cfg : Config) (model : ModelInfo) (out : Nat) :
    MStep (CommFact cfg) (send_forward cfg model out) := by
  intro st
  unfold send_forward
  by_cases hl : is_pipeline_last_stage cfg = true
  · simp only [hl, Bool.not_true, Bool.false_eq_true, if_false]
    exact MStep_single_event Ev.sendForward () (CommFact_refl cfg st)
  · simp only [eq_false_of_ne_true hl, Bool.not_false, if_true]
    by_cases hs : should_logging cfg (get_pipeline_model_parallel_next_rank cfg) = true
    · simp only [hs, if_true]
      have hlog : cfg.args.logging = true := by
        by_contra hc
        rw [should_logging_of_not_logging (eq_false_of_ne_true hc) _] at hs
        exact absurd hs (by simp)
      exact MStep_single_event Ev.sendForward ()
        (CommFact_of_stage st model.output_numel hlog)
    · simp only [hs, if_false]
      exact MStep_single_event Ev.sendForward () (CommFact_refl cfg st)

theorem send_backward_comm (cfg : Config) (model : ModelInfo)
    (grad : Option Nat) :
    MStep (CommFact cfg) (send_backward cfg model grad) := by
  intro st
  unfold send_backward
  by_cases hfst : is_pipeline_first_stage cfg = true
  · simp only [hfst, Bool.not_true, Bool.false_eq_true, if_false]
    exact MStep_single_event Ev.sendBackward () (CommFact_refl cfg st)
  · simp only [eq_false_of_ne_true hfst, Bool.not_false, if_true]
    by_cases hs : should_logging cfg (get_pipeline_model_parallel_prev_rank cfg) = true
    · simp only [hs, if_true]
      have hlog : cfg.args.logging = true := by
        by_contra hc
        rw [should_logging_of_not_logging (eq_false_of_ne_true hc) _] at hs
        exact absurd hs (by simp)
      exact MStep_single_event Ev.sendBackward ()
        (CommFact_of_stage st model.input_numel hlog)
    · simp only [hs, if_false]
      exact MStep_single_event Ev.sendBackward () (CommFact_refl cfg st)

theorem send_forward_recv_backward_comm (cfg : Config) (model : ModelInfo)
    (out : Nat) :
    MStep (CommFact cfg) (send_forward_recv_backward cfg model out) := by
  intro st
  unfold send_forward_recv_backward
  by_cases hl : is_pipeline_last_stage cfg = true
  · simp only [hl, Bool.not_true, Bool.false_eq_true, if_false]
    exact MStep_single_event Ev.sendForwardRecvBackward (none : Option Nat)
      (CommFact_refl cfg st)
  · simp only [eq_false_of_ne_true hl, Bool.not_false, if_true]
    by_cases hs : should_logging cfg (get_pipeline_model_parallel_next_rank cfg) = true
    · simp only [hs, if_true]
      have hlog : cfg.args.logging = true := by
        by_contra hc
        rw [should_logging_of_not_logging (eq_false_of_ne_true hc) _] at hs
        exact absurd hs (by simp)
      refine MStep_single_event Ev.sendForwardRecvBackward _ ?_
      exact CommFact_trans (CommFact_of_stage st model.output_numel hlog)
        (CommFact_of_fresh _ _)
    · simp only [hs, if_false]
      exact MStep_single_event Ev.sendForwardRecvBackward (some st.fresh)
        (CommFact_of_fresh st (st.fresh + 1))

theorem send_backward_recv_forward_comm (cfg : Config) (model : ModelInfo)
    (grad : Option Nat) :
    MStep (CommFact cfg) (send_backward_recv_forward cfg model grad) := by
  intro st
  unfold send_backward_recv_forward
  by_cases hfst : is_pipeline_first_stage cfg = true
  · simp only [hfst, Bool.not_true, Bool.false_eq_true, if_false]
    exact MStep_single_event Ev.sendBackwardRecvForward (none : Option Nat)
      (CommFact_refl cfg st)
  · simp only [eq_false_of_ne_true hfst, Bool.not_false, if_true]
    by_cases hs : should_logging cfg (get_pipeline_model_parallel_prev_rank cfg) = true
    · simp only [hs, if_true]
      have hlog : cfg.args.logging = true := by
        by_contra hc
        rw [should_logging_of_not_logging (eq_false_of_ne_true hc) _] at hs
        exact absurd hs (by simp)
      refine MStep_single_event Ev.sendBackwardRecvForward _ ?_
      exact CommFact_trans (CommFact_of_stage st model.input_numel hlog)
        (CommFact_of_fresh _ _)
    · simp only [hs, if_false]
      exact MStep_single_event Ev.sendBackwardRecvForward (some st.fresh)
        (CommFact_of_fresh st (st.fresh + 1))

theorem backward_step_comm (cfg : Config) (inp : Option Nat) (out : Nat)
    (grad : Option Nat) :
    MStep (CommFact cfg) (backward_step inp out grad) := by
  intro st
  unfold backward_step
  cases inp with
  | none =>
    exact MStep_single_event Ev.backwardStep (none : Option Nat)
      (CommFact_refl cfg st)
  | some t =>
    exact MStep_single_event Ev.backwardStep (some st.fresh)
      (CommFact_of_fresh st (st.fresh + 1))

theorem CommFact_of_flushed {cfg : Config} (st : St) :
    CommFact cfg st { st with log := ⟨[], 0⟩ } :=
  ⟨⟨rfl, rfl, rfl, rfl⟩, rfl, Or.inr rfl, fun _ => Or.inr rfl⟩

theorem recv_backward_comm (cfg : Config) (fuel shape : Nat) :
    MStep (CommFact cfg) (recv_backward cfg fuel shape) := by
  intro st
  unfold recv_backward
  by_cases hl : is_pipeline_last_stage cfg = true
  · simp only [hl, Bool.not_true, Bool.false_eq_true, if_false]
    exact MStep_single_event Ev.recvBackward (none : Option Nat) (CommFact_refl cfg st)
  · simp only [eq_false_of_ne_true hl, Bool.not_false, if_true]
    by_cases he : st.log.logging_buffer.isEmpty = true
    · simp only [he, if_true]
      exact MStep_single_event Ev.recvBackward (some st.fresh)
        (CommFact_of_fresh st (st.fresh + 1))
    · simp only [eq_false_of_ne_true he, Bool.false_eq_true, if_false]
      rcases hr : logging_run memory_budget fuel st.log with _ | l
      · constructor
        · intro q hq
          replace hq : q ∈ ([] : Trace) := hq
          simp at hq
        · intro a st1 h
          replace h : (Except.error Err.flushDiverged :
              Except Err (Option Nat × St)) = Except.ok (a, st1) := h
          simp at h
      · have hne : st.log.logging_buffer ≠ [] := by
          intro hc
          rw [List.isEmpty_iff] at he
          exact he hc
        have hterm := logging_run_terminal memory_budget fuel _ _ hne hr
        subst hterm
        have hA : CommFact cfg st { st with log := ⟨[], 0⟩ } :=
          CommFact_of_flushed st
        have hB : CommFact cfg st
            { st with log := ⟨[], 0⟩, fresh := st.fresh + 1 } :=
          CommFact_trans hA (CommFact_of_fresh _ _)
        constructor
        · intro q hq
          replace hq : q ∈ ([(Ev.flush, { st with log := ⟨[], 0⟩ }),
              (Ev.recvBackward,
                { st with log := ⟨[], 0⟩, fresh := st.fresh + 1 })] : Trace) := hq
          simp only [List.mem_cons, List.mem_singleton, List.not_mem_nil,
            or_false] at hq
          rcases hq with hq | hq
          · rw [hq]; exact hA
          · rw [hq]; exact hB
        · intro a st1 h
          replace h : (Except.ok (some st.fresh,
              { st with log := ⟨[], 0⟩, fresh := st.fresh + 1 }) :
              Except Err (Option Nat × St)) = Except.ok (a, st1) := h
          have h2 := Except.ok.inj h
          have : st1 = { st with log := ⟨[], 0⟩, fresh := st.fresh + 1 } :=
            (congrArg Prod.snd h2).symm
          rw [this]; exact hB

theorem final_logging_flush_comm (cfg : Config) (fuel : Nat) :
    MStep (CommFact cfg) (final_logging_flush fuel) := by
  intro st
  unfold final_logging_flush
  by_cases he : st.log.logging_buffer.isEmpty = true
  · simp only [he, if_true]
    constructor
    · intro q hq; simp at hq
    · intro a st1 h
      have h2 := Except.ok.inj h
      have : st1 = st := (congrArg Prod.snd h2).symm
      rw [this]; exact CommFact_refl cfg st
  · simp only [eq_false_of_ne_true he, Bool.false_eq_true, if_false]
    rcases hr : logging_run memory_budget fuel st.log with _ | l
    · constructor
      · intro q hq
        replace hq : q ∈ ([] : Trace) := hq
        simp at hq
      · intro a st1 h
        replace h : (Except.error Err.flushDiverged :
            Except Err (Unit × St)) = Except.ok (a, st1) := h
        simp at h
    · have hne : st.log.logging_buffer ≠ [] := by
        intro hc
        rw [List.isEmpty_iff] at he
        exact he hc
      have hterm := logging_run_terminal memory_budget fuel _ _ hne hr
      subst hterm
      have hA : CommFact cfg st { st with log := ⟨[], 0⟩ } :=
        CommFact_of_flushed st
      constructor
      · intro q hq
        replace hq : q ∈ ([(Ev.flush, { st with log := ⟨[], 0⟩ })] : Trace) := hq
        simp only [List.mem_singleton] at hq
        rw [hq]; exact hA
      · intro a st1 h
        replace h : (Except.ok ((), { st with log := ⟨[], 0⟩ }) :
            Except Err (Unit × St)) = Except.ok (a, st1) := h
        have h2 := Except.ok.inj h
        have : st1 = { st with log := ⟨[], 0⟩ } := (congrArg Prod.snd h2).symm
        rw [this]; exact hA

theorem forward_step_cases (cfg : Config) (d : Nat → Rat) (input : Option Nat)
    (st : St) :
    ((forward_step cfg d input) st = ([], Except.error Err.assertionFailed) ∧
      (is_pipeline_first_stage cfg && input.isSome) = true) ∨
    ∃ st3 out, (forward_step cfg d input) st =
        ([(Ev.forwardStep, st3)], Except.ok (out, st3)) ∧
      FrameQL st st3 ∧ st3.log = st.log ∧
      (is_pipeline_last_stage cfg = false → st3.loss = st.loss) ∧
      (is_pipeline_last_stage cfg = true →
        st3.loss = st.loss +
          d st.pos / ((get_num_microbatches cfg.args : Int) : Rat)) := by
  unfold forward_step
  by_cases hass : (is_pipeline_first_stage cfg && input.isSome) = true
  · left
    refine ⟨?_, hass⟩
    simp only [hass, if_true]
  · right
    simp only [hass, if_false]
    by_cases hf1 : is_pipeline_first_stage cfg = true
    · by_cases hl : is_pipeline_last_stage cfg = true
      · simp only [hf1, hl, Bool.true_or, if_true]
        exact ⟨_, _, rfl, ⟨rfl, rfl, rfl, rfl⟩, rfl,
          fun hc => by first | exact hc.elim | simp [hl] at hc, fun _ => rfl⟩
      · simp only [hf1, eq_false_of_ne_true hl, Bool.true_or, if_true,
          Bool.false_eq_true, if_false]
        exact ⟨_, _, rfl, ⟨rfl, rfl, rfl, rfl⟩, rfl, fun _ => rfl,
          fun hc => by first | exact hc.elim | simp [eq_false_of_ne_true hl] at hc⟩
    · by_cases hl : is_pipeline_last_stage cfg = true
      · simp only [eq_false_of_ne_true hf1, hl, Bool.false_or, if_true]
        exact ⟨_, _, rfl, ⟨rfl, rfl, rfl, rfl⟩, rfl,
          fun hc => by first | exact hc.elim | simp [hl] at hc, fun _ => rfl⟩
      · simp only [eq_false_of_ne_true hf1, eq_false_of_ne_true hl, Bool.false_or,
          Bool.false_eq_true, if_false]
        exact ⟨_, _, rfl, ⟨rfl, rfl, rfl, rfl⟩, rfl, fun _ => rfl,
          fun hc => by first | exact hc.elim | simp [eq_false_of_ne_true hl] at hc⟩

theorem pushPair_eq (inp : Option Nat) (out : Nat) (st : St) :
    pushPair inp out st =
      ([(Ev.pushPair inp out,
          { st with input_tensors := st.input_tensors ++ [inp],
                    output_tensors := st.output_tensors ++ [out],
                    pushed := st.pushed ++ [(inp, out)] })],
        Except.ok ((),
          { st with input_tensors := st.input_tensors ++ [inp],
                    output_tensors := st.output_tensors ++ [out],
                    pushed := st.pushed ++ [(inp, out)] })) := rfl

theorem popPair_cases (st : St) :
    (popPair st = ([], Except.error Err.popFromEmpty) ∧
      (st.input_tensors = [] ∨ st.output_tensors = [])) ∨
    ∃ inp is1 out os1, st.input_tensors = inp :: is1 ∧
      st.output_tensors = out :: os1 ∧
      popPair st =
        ([(Ev.popPair inp out,
            { st with input_tensors := is1, output_tensors := os1,
                      popped := st.popped ++ [(inp, out)] })],
          Except.ok ((inp, out),
            { st with input_tensors := is1, output_tensors := os1,
                      popped := st.popped ++ [(inp, out)] })) := by
  unfold popPair
  rcases hin : st.input_tensors with _ | ⟨inp, is1⟩
  · left
    exact ⟨rfl, Or.inl rfl⟩
  · rcases hout : st.output_tensors with _ | ⟨out, os1⟩
    · left
      exact ⟨rfl, Or.inr rfl⟩
    · right
      refine ⟨inp, is1, out, os1, rfl, rfl, ?_⟩
      rfl

theorem init_step_state_eq (st : St) :
    init_step_state st =
      ([], Except.ok ((),
        { st with input_tensors := [], output_tensors := [], loss := 0,
                  pushed := [], popped := [] })) := rfl

theorem return_loss_eq (st : St) :
    return_loss st = ([], Except.ok (st.loss, st)) := rfl

theorem raiseErr_eq {α : Type} (e : Err) (st : St) :
    (raiseErr e : M α) st = ([], Except.error e) := rfl

theorem MPreserves_pure {P : St → Prop} {α : Type} (a : α) :
    MPreserves P (pure a : M α) := by
  intro st hP
  constructor
  · intro q hq; simp [M_pure_apply] at hq
  · intro b st1 h
    simp only [M_pure_apply, Except.ok.injEq, Prod.mk.injEq] at h
    rw [← h.2]; exact hP

theorem MPreserves_bind {P : St → Prop} {α β : Type} {x : M α} {f : α → M β}
    (hx : MPreserves P x) (hf : ∀ a, MPreserves P (f a)) :
    MPreserves P (x >>= f) := by
  intro st hP
  constructor
  · intro q hq
    rcases he : x st with ⟨tr1, r⟩
    rcases r with e | ⟨a, st1⟩
    · rw [M_bind_error_left f he] at hq
      exact ((hx st hP).1 q (by rw [he]; exact hq))
    · rcases hf2 : f a st1 with ⟨tr2, r2⟩
      have hP1 : P st1 := (hx st hP).2 a st1 (by rw [he])
      have hmem : q ∈ tr1 ++ tr2 := by
        rcases r2 with e2 | ⟨b, st2⟩
        · rw [M_bind_error_right he hf2] at hq; exact hq
        · rw [M_bind_ok he hf2] at hq; exact hq
      rcases List.mem_append.mp hmem with hq1 | hq2
      · exact (hx st hP).1 q (by rw [he]; exact hq1)
      · exact ((hf a) st1 hP1).1 q (by rw [hf2]; exact hq2)
  · intro b st2 h
    have hfull : (x >>= f) st = (((x >>= f) st).1, Except.ok (b, st2)) := by
      rw [← h]
    obtain ⟨tr1, a, st1, tr2, hx1, hf1, _⟩ := M_bind_ok_inv hfull
    have hP1 : P st1 := (hx st hP).2 a st1 (by rw [hx1])
    exact ((hf a) st1 hP1).2 b st2 (by rw [hf1])

theorem MPreserves_of_MStep {P : St → Prop} {R : St → St → Prop} {α : Type}
    {x : M α} (hx : MStep R x)
    (hpres : ∀ st st1, P st → R st st1 → P st1) : MPreserves P x := by
  intro st hP
  constructor
  · intro q hq
    exact hpres st q.2 hP ((hx st).1 q hq)
  · intro a st1 h
    exact hpres st st1 hP ((hx st).2 a st1 h)

theorem BoundaryInv_CommFact {cfg : Config} {st st1 : St}
    (hP : BoundaryInv cfg st) (hR : CommFact cfg st st1) :
    BoundaryInv cfg st1 := by
  obtain ⟨h1, h2, h3, h4⟩ := hP
  obtain ⟨⟨f1, f2, f3, f4⟩, _, hs, hb⟩ := hR
  refine ⟨?_, ?_, ?_, ?_⟩
  · rw [f1, f2]; exact h1
  · rw [f1, f2, f3, f4]; exact h2
  · rcases hs with h | h
    · rw [h]; exact h3
    · exact h
  · intro hlog
    rcases hb hlog with h | h
    · rw [h]; exact h4 hlog
    · exact h

theorem recv_forward_pres (cfg : Config) :
    MPreserves (BoundaryInv cfg) (recv_forward cfg) :=
  MPreserves_of_MStep (recv_forward_comm cfg)
    (fun _ _ hP hR => BoundaryInv_CommFact hP hR)

theorem send_forward_pres (cfg : Config) (model : ModelInfo) (out : Nat) :
    MPreserves (BoundaryInv cfg) (send_forward cfg model out) :=
  MPreserves_of_MStep (send_forward_comm cfg model out)
    (fun _ _ hP hR => BoundaryInv_CommFact hP hR)

theorem send_backward_pres (cfg : Config) (model : ModelInfo)
    (grad : Option Nat) :
    MPreserves (BoundaryInv cfg) (send_backward cfg model grad) :=
  MPreserves_of_MStep (send_backward_comm cfg model grad)
    (fun _ _ hP hR => BoundaryInv_CommFact hP hR)

theorem send_forward_recv_backward_pres (cfg : Config) (model : ModelInfo)
    (out : Nat) :
    MPreserves (BoundaryInv cfg) (send_forward_recv_backward cfg model out) :=
  MPreserves_of_MStep (send_forward_recv_backward_comm cfg model out)
    (fun _ _ hP hR => BoundaryInv_CommFact hP hR)

theorem send_backward_recv_forward_pres (cfg : Config) (model : ModelInfo)
    (grad : Option Nat) :
    MPreserves (BoundaryInv cfg) (send_backward_recv_forward cfg model grad) :=
  MPreserves_of_MStep (send_backward_recv_forward_comm cfg model grad)
    (fun _ _ hP hR => BoundaryInv_CommFact hP hR)

theorem recv_backward_pres (cfg : Config) (fuel shape : Nat) :
    MPreserves (BoundaryInv cfg) (recv_backward cfg fuel shape) :=
  MPreserves_of_MStep (recv_backward_comm cfg fuel shape)
    (fun _ _ hP hR => BoundaryInv_CommFact hP hR)

theorem backward_step_pres (cfg : Config) (inp : Option Nat) (out : Nat)
    (grad : Option Nat) :
    MPreserves (BoundaryInv cfg) (backward_step inp out grad) :=
  MPreserves_of_MStep (backward_step_comm cfg inp out grad)
    (fun _ _ hP hR => BoundaryInv_CommFact hP hR)

theorem final_logging_flush_pres (cfg : Config) (fuel : Nat) :
    MPreserves (BoundaryInv cfg) (final_logging_flush fuel) :=
  MPreserves_of_MStep (final_logging_flush_comm cfg fuel)
    (fun _ _ hP hR => BoundaryInv_CommFact hP hR)

theorem forward_step_pres (cfg : Config) (d : Nat → Rat) (input : Option Nat) :
    MPreserves (BoundaryInv cfg) (forward_step cfg d input) := by
  intro st hP
  rcases forward_step_cases cfg d input st with ⟨h, -⟩ | ⟨st3, out, h, hfr, hlog, -, -⟩
  · rw [h]
    constructor
    · intro q hq; simp at hq
    · intro a st1 hok; simp at hok
  · rw [h]
    obtain ⟨f1, f2, f3, f4⟩ := hfr
    have hP3 : BoundaryInv cfg st3 := by
      obtain ⟨h1, h2, h3, h4⟩ := hP
      refine ⟨by rw [f1, f2]; exact h1, by rw [f1, f2, f3, f4]; exact h2,
        by rw [hlog]; exact h3, fun hl => by rw [hlog]; exact h4 hl⟩
    constructor
    · intro q hq
      simp only [List.mem_singleton] at hq
      rw [hq]; exact hP3
    · intro a st1 hok
      simp only [Except.ok.injEq, Prod.mk.injEq] at hok
      rw [← hok.2]; exact hP3

theorem pushPair_pres (cfg : Config) (inp : Option Nat) (out : Nat) :
    MPreserves (BoundaryInv cfg) (pushPair inp out) := by
  intro st hP
  rw [pushPair_eq]
  obtain ⟨h1, h2, h3, h4⟩ := hP
  have hP1 : BoundaryInv cfg
      { st with input_tensors := st.input_tensors ++ [inp],
                output_tensors := st.output_tensors ++ [out],
                pushed := st.pushed ++ [(inp, out)] } := by
    refine ⟨?_, ?_, h3, h4⟩
    · simp only [List.length_append, List.length_singleton, h1]
    · simp only
      rw [List.zip_append (by rw [h1]), h2, List.append_assoc]
      rfl
  constructor
  · intro q hq
    simp only [List.mem_singleton] at hq
    rw [hq]; exact hP1
  · intro a st1 hok
    simp only [Except.ok.injEq, Prod.mk.injEq] at hok
    rw [← hok.2]; exact hP1

theorem popPair_pres (cfg : Config) :
    MPreserves (BoundaryInv cfg) popPair := by
  intro st hP
  rcases popPair_cases st with ⟨h, -⟩ | ⟨inp, is1, out, os1, hin, hout, h⟩
  · rw [h]
    constructor
    · intro q hq; simp at hq
    · intro a st1 hok; simp at hok
  · rw [h]
    obtain ⟨h1, h2, h3, h4⟩ := hP
    have hP1 : BoundaryInv cfg
        { st with input_tensors := is1, output_tensors := os1,
                  popped := st.popped ++ [(inp, out)] } := by
      refine ⟨?_, ?_, h3, h4⟩
      · have := h1
        rw [hin, hout] at this
        simpa using this
      · simp only
        rw [h2, hin, hout, List.zip_cons_cons, List.append_assoc]
        rfl
    constructor
    · intro q hq
      simp only [List.mem_singleton] at hq
      rw [hq]; exact hP1
    · intro a st1 hok
      simp only [Except.ok.injEq, Prod.mk.injEq] at hok
      rw [← hok.2]; exact hP1

theorem init_step_state_pres (cfg : Config) :
    MPreserves (BoundaryInv cfg) init_step_state := by
  intro st hP
  rw [init_step_state_eq]
  constructor
  · intro q hq; simp at hq
  · intro a st1 hok
    simp only [Except.ok.injEq, Prod.mk.injEq] at hok
    rw [← hok.2]
    exact ⟨rfl, rfl, hP.2.2.1, hP.2.2.2⟩

theorem return_loss_pres (cfg : Config) :
    MPreserves (BoundaryInv cfg) return_loss := by
  intro st hP
  rw [return_loss_eq]
  constructor
  · intro q hq; simp at hq
  · intro a st1 hok
    simp only [Except.ok.injEq, Prod.mk.injEq] at hok
    rw [← hok.2]; exact hP

theorem raiseErr_pres {α : Type} (cfg : Config) (e : Err) :
    MPreserves (BoundaryInv cfg) (raiseErr e : M α) := by
  intro st hP
  rw [raiseErr_eq]
  constructor
  · intro q hq; simp at hq
  · intro a st1 hok; simp at hok

theorem warmupLoop_pres (cfg : Config) (model : ModelInfo) (d : Nat → Rat) :
    ∀ k : Nat, MPreserves (BoundaryInv cfg) (warmupLoop cfg model d k) := by
  intro k
  induction k with
  | zero =>
    rw [warmupLoop]
    exact MPreserves_pure ()
  | succ k ih =>
    rw [warmupLoop]
    refine MPreserves_bind (recv_forward_pres cfg) fun input => ?_
    refine MPreserves_bind (forward_step_pres cfg d input) fun out => ?_
    refine MPreserves_bind (send_forward_pres cfg model out) fun _ => ?_
    exact MPreserves_bind (pushPair_pres cfg input out) fun _ => ih

theorem steadyLoop_pres (cfg : Config) (model : ModelInfo) (d : Nat → Rat)
    (fuel n : Nat) :
    ∀ (k i : Nat) (input : Option Nat),
      MPreserves (BoundaryInv cfg) (steadyLoop cfg model d fuel n k i input) := by
  intro k
  induction k with
  | zero =>
    intro i input
    rw [steadyLoop]
    exact MPreserves_pure ()
  | succ k ih =>
    intro i input
    rw [steadyLoop]
    refine MPreserves_bind (forward_step_pres cfg d input) fun out => ?_
    dsimp only
    split
    · refine MPreserves_bind (send_forward_pres cfg model out) fun _ => ?_
      refine MPreserves_bind (raiseErr_pres cfg Err.missingShapeArgument)
        fun grad => ?_
      refine MPreserves_bind (pushPair_pres cfg input out) fun _ => ?_
      refine MPreserves_bind (popPair_pres cfg) fun popRes => ?_
      refine MPreserves_bind (backward_step_pres cfg popRes.1 popRes.2 grad)
        fun igrad => ?_
      dsimp only
      split
      · refine MPreserves_bind (send_backward_pres cfg model igrad) fun _ => ?_
        exact MPreserves_bind (MPreserves_pure popRes.1)
          fun next => ih (i + 1) next
      · exact MPreserves_bind (send_backward_recv_forward_pres cfg model igrad)
          fun next => ih (i + 1) next
    · refine MPreserves_bind (send_forward_recv_backward_pres cfg model out)
        fun grad => ?_
      refine MPreserves_bind (pushPair_pres cfg input out) fun _ => ?_
      refine MPreserves_bind (popPair_pres cfg) fun popRes => ?_
      refine MPreserves_bind (backward_step_pres cfg popRes.1 popRes.2 grad)
        fun igrad => ?_
      dsimp only
      split
      · refine MPreserves_bind (send_backward_pres cfg model igrad) fun _ => ?_
        exact MPreserves_bind (MPreserves_pure popRes.1)
          fun next => ih (i + 1) next
      · exact MPreserves_bind (send_backward_recv_forward_pres cfg model igrad)
          fun next => ih (i + 1) next

theorem cooldownLoop_pres (cfg : Config) (model : ModelInfo) (fuel : Nat) :
    ∀ k : Nat, MPreserves (BoundaryInv cfg) (cooldownLoop cfg model fuel k) := by
  intro k
  induction k with
  | zero =>
    rw [cooldownLoop]
    exact MPreserves_pure ()
  | succ k ih =>
    rw [cooldownLoop]
    refine MPreserves_bind (popPair_pres cfg) fun popRes => ?_
    refine MPreserves_bind (recv_backward_pres cfg fuel model.output_numel)
      fun grad => ?_
    refine MPreserves_bind (backward_step_pres cfg popRes.1 popRes.2 grad)
      fun igrad => ?_
    exact MPreserves_bind (send_backward_pres cfg model igrad) fun _ => ih

theorem pipedream_flush_schedule_pres (cfg : Config) (model : ModelInfo)
    (d : Nat → Rat) (fuel : Nat) :
    MPreserves (BoundaryInv cfg) (pipedream_flush_schedule cfg model d fuel) := by
  rw [pipedream_flush_schedule]
  refine MPreserves_bind (init_step_state_pres cfg) fun _ => ?_
  refine MPreserves_bind (warmupLoop_pres cfg model d _) fun _ => ?_
  dsimp only
  split
  · refine MPreserves_bind (recv_forward_pres cfg) fun input => ?_
    refine MPreserves_bind (steadyLoop_pres cfg model d fuel _ _ _ input)
      fun _ => ?_
    refine MPreserves_bind (cooldownLoop_pres cfg model fuel _) fun _ => ?_
    exact MPreserves_bind (final_logging_flush_pres cfg fuel)
      fun _ => return_loss_pres cfg
  · refine MPreserves_bind (MPreserves_pure none) fun input => ?_
    refine MPreserves_bind (steadyLoop_pres cfg model d fuel _ _ _ input)
      fun _ => ?_
    refine MPreserves_bind (cooldownLoop_pres cfg model fuel _) fun _ => ?_
    exact MPreserves_bind (final_logging_flush_pres cfg fuel)
      fun _ => return_loss_pres cfg

theorem BoundaryInv_initSt (cfg : Config) : BoundaryInv cfg initSt :=
  ⟨rfl, rfl, rfl, fun _ => rfl⟩

theorem run_schedule_boundary (cfg : Config) (model : ModelInfo)
    (d : Nat → Rat) (fuel : Nat) :
    (∀ q ∈ (run_schedule cfg model d fuel).1, BoundaryInv cfg q.2) ∧
    (∀ L stF, (run_schedule cfg model d fuel).2 = Except.ok (L, stF) →
      BoundaryInv cfg stF) := by
  have h := pipedream_flush_schedule_pres cfg model d fuel initSt
    (BoundaryInv_initSt cfg)
  exact ⟨h.1, h.2⟩

/-- C3: throughout every execution of the schedule — also the executions
that end in an exception — at every observation boundary the two in-flight
queues have equal length, and the ghost history of paired pushes equals the
ghost history of paired pops followed by the still-pending `zip` of the two
queues: every paired pop removed the oldest still-pending pair, so backward
steps consume the earliest unmatched forward's pair in strict FIFO order. -/
theorem claim_C3 (cfg : Config) (model : ModelInfo) (d : Nat → Rat)
    (fuel : Nat) :
    ∀ q ∈ (run_schedule cfg model d fuel).1,
      q.2.input_tensors.length = q.2.output_tensors.length ∧
      q.2.pushed = q.2.popped ++ q.2.input_tensors.zip q.2.output_tensors := by
  intro q hq
  have h := (run_schedule_boundary cfg model d fuel).1 q hq
  exact ⟨h.1, h.2.1⟩

set_option maxHeartbeats 1000000 in
theorem claim_C3_witness :
    witnessSt.input_tensors.length = witnessSt.output_tensors.length ∧
    witnessSt.pushed =
      witnessSt.popped ++ witnessSt.input_tensors.zip witnessSt.output_tensors :=
  claim_C3 ⟨4, 2, ⟨8, 2, false, 1⟩⟩ ⟨3, 5⟩ (fun _ => 0) 0
    (Ev.recvForward, witnessSt)
    (by
      simp only [run_schedule, pipedream_flush_schedule, warmupLoop, steadyLoop,
        cooldownLoop,
        init_step_state, recv_forward, forward_step, send_forward, send_backward,
        recv_backward, send_forward_recv_backward, send_backward_recv_forward,
        pushPair, popPair,
        final_logging_flush, return_loss, raiseErr, M_bind_apply, M_pure_apply, initSt,
        is_pipeline_first_stage, is_pipeline_last_stage, get_pipeline_model_parallel_rank,
        get_pipeline_model_parallel_world_size, get_pipeline_model_parallel_next_rank,
        get_pipeline_model_parallel_prev_rank, should_logging, add_to_logging_buffer,
        get_num_microbatches, num_warmup_microbatches, num_microbatches_remaining,
        Int.reduceSub, Int.reduceAdd, Int.reduceToNat, Int.reduceDiv, Int.reduceBEq,
        Int.reduceLT, Nat.reduceAdd, Nat.reduceSub, Nat.reduceBEq, beq_iff_eq,
        reduceIte, Bool.not_true, Bool.not_false, Option.isSome, Bool.and_true,
        Bool.and_false,
        Bool.true_and, Bool.false_and, Bool.or_true, Bool.or_false, Bool.true_or,
        Bool.false_or,
        List.map_append, List.map_cons, List.map_nil, List.append_assoc,
        List.nil_append,
        List.append_nil, List.cons_append, List.singleton_append, witnessSt]
      exact List.mem_cons_self _ _)

/-- C2 (amended): at every observation boundary of a schedule run the offload
byte counter `logged_size_in_bytes` is 0 — `add_to_logging_buffer` stages
tensors without incrementing it, and every terminating flush leaves it 0 —
so the counter equals the sum of buffered tensor byte sizes exactly when the
buffer is empty; and immediately after an overflow-triggered clear inside
the flush loop the counter is 0 and the buffer is empty. -/
theorem claim_C2 (cfg : Config) (model : ModelInfo) (d : Nat → Rat)
    (fuel : Nat) (budget i : Nat) (s : LogState) :
    (∀ q ∈ (run_schedule cfg model d fuel).1,
      q.2.log.logged_size_in_bytes = 0 ∧
      (q.2.log.logging_buffer = [] →
        q.2.log.logged_size_in_bytes = buffer_byte_sum q.2.log)) ∧
    (budget < s.logged_size_in_bytes + s.logging_buffer.getD i 0 * 4 →
      logging_iteration budget i s = ⟨[], 0⟩) := by
  constructor
  · intro q hq
    have h := (run_schedule_boundary cfg model d fuel).1 q hq
    refine ⟨h.2.2.1, fun hbuf => ?_⟩
    rw [h.2.2.1, buffer_byte_sum, hbuf]
    rfl
  · intro hov
    unfold logging_iteration
    rw [if_pos hov]

set_option maxHeartbeats 1000000 in
theorem claim_C2_witness :
    (witnessSt.log.logged_size_in_bytes = 0 ∧
      (witnessSt.log.logging_buffer = [] →
        witnessSt.log.logged_size_in_bytes = buffer_byte_sum witnessSt.log)) ∧
    logging_iteration 4 0 ⟨[3], 0⟩ = ⟨[], 0⟩ :=
  ⟨(claim_C2 ⟨4, 2, ⟨8, 2, false, 1⟩⟩ ⟨3, 5⟩ (fun _ => 0) 0 4 0 ⟨[3], 0⟩).1
    (Ev.recvForward, witnessSt)
    (by
      simp only [run_schedule, pipedream_flush_schedule, warmupLoop, steadyLoop,
        cooldownLoop,
        init_step_state, recv_forward, forward_step, send_forward, send_backward,
        recv_backward, send_forward_recv_backward, send_backward_recv_forward,
        pushPair, popPair,
        final_logging_flush, return_loss, raiseErr, M_bind_apply, M_pure_apply, initSt,
        is_pipeline_first_stage, is_pipeline_last_stage, get_pipeline_model_parallel_rank,
        get_pipeline_model_parallel_world_size, get_pipeline_model_parallel_next_rank,
        get_pipeline_model_parallel_prev_rank, should_logging, add_to_logging_buffer,
        get_num_microbatches, num_warmup_microbatches, num_microbatches_remaining,
        Int.reduceSub, Int.reduceAdd, Int.reduceToNat, Int.reduceDiv, Int.reduceBEq,
        Int.reduceLT, Nat.reduceAdd, Nat.reduceSub, Nat.reduceBEq, beq_iff_eq,
        reduceIte, Bool.not_true, Bool.not_false, Option.isSome, Bool.and_true,
        Bool.and_false,
        Bool.true_and, Bool.false_and, Bool.or_true, Bool.or_false, Bool.true_or,
        Bool.false_or,
        List.map_append, List.map_cons, List.map_nil, List.append_assoc,
        List.nil_append,
        List.append_nil, List.cons_append, List.singleton_append, witnessSt]
      exact List.mem_cons_self _ _),
   (claim_C2 ⟨4, 2, ⟨8, 2, false, 1⟩⟩ ⟨3, 5⟩ (fun _ => 0) 0 4 0 ⟨[3], 0⟩).2
    (by norm_num)⟩

/-- C8: `should_logging` returns false whenever offload is not enabled in the
configuration; with offload enabled it returns true exactly when source and
destination rank map to different nodes (`rank // local_world_size`
differs); and with offload disabled the offload buffer is empty at every
observation boundary of a schedule run and at its return. -/
theorem claim_C8 (cfg : Config) (model : ModelInfo) (d : Nat → Rat)
    (fuel : Nat) (dst : Int) :
    (cfg.args.logging = false → should_logging cfg dst = false) ∧
    (cfg.args.logging = true →
      (should_logging cfg dst = true ↔
        get_pipeline_model_parallel_rank cfg / cfg.args.local_world_size ≠
          dst / cfg.args.local_world_size)) ∧
    (cfg.args.logging = false →
      (∀ q ∈ (run_schedule cfg model d fuel).1, q.2.log.logging_buffer = []) ∧
      (∀ L stF, (run_schedule cfg model d fuel).2 = Except.ok (L, stF) →
        stF.log.logging_buffer = [])) := by
  refine ⟨fun h => should_logging_of_not_logging h dst, ?_, ?_⟩
  · intro hlog
    unfold should_logging
    rw [hlog]
    simp only [Bool.not_true, Bool.false_eq_true, if_false]
    by_cases hnode : get_pipeline_model_parallel_rank cfg /
        cfg.args.local_world_size = dst / cfg.args.local_world_size
    · have hb : (get_pipeline_model_parallel_rank cfg /
          cfg.args.local_world_size == dst / cfg.args.local_world_size) = true :=
        beq_iff_eq.mpr hnode
      simp [hb, hnode]
    · have hb : (get_pipeline_model_parallel_rank cfg /
          cfg.args.local_world_size == dst / cfg.args.local_world_size) = false := by
        rw [beq_eq_false_iff_ne]
        exact hnode
      simp [hb, hnode]
  · intro hlog
    constructor
    · intro q hq
      exact ((run_schedule_boundary cfg model d fuel).1 q hq).2.2.2 hlog
    · intro L stF h
      exact ((run_schedule_boundary cfg model d fuel).2 L stF h).2.2.2 hlog

set_option maxHeartbeats 1000000 in
theorem claim_C8_witness :
    should_logging ⟨4, 2, ⟨8, 2, false, 1⟩⟩ 3 = false ∧
    (should_logging ⟨2, 0, ⟨2, 2, true, 1⟩⟩ 1 = true ↔
      get_pipeline_model_parallel_rank ⟨2, 0, ⟨2, 2, true, 1⟩⟩ / (1 : Int) ≠
        1 / (1 : Int)) := by
  constructor
  · exact (claim_C8 ⟨4, 2, ⟨8, 2, false, 1⟩⟩ ⟨3, 5⟩ (fun _ => 0) 0 3).1 rfl
  · exact (claim_C8 ⟨2, 0, ⟨2, 2, true, 1⟩⟩ ⟨3, 5⟩ (fun _ => 0) 0 1).2.1 rfl

theorem M_bind_trace_ok_left {α β : Type} {x : M α} (f : α → M β) {st : St}
    {tr1 : Trace} {a : α} {st1 : St} (hx : x st = (tr1, Except.ok (a, st1))) :
    ((x >>= f) st).1 = tr1 ++ ((f a st1)).1 := by
  rw [M_bind_apply, hx]

theorem NoRecvForward_pure {α : Type} (a : α) : NoRecvForward (pure a : M α) := by
  intro st q hq
  simp [M_pure_apply] at hq

theorem NoRecvForward_bind {α β : Type} {x : M α} {f : α → M β}
    (hx : NoRecvForward x) (hf : ∀ a, NoRecvForward (f a)) :
    NoRecvForward (x >>= f) := by
  intro st q hq
  rcases he : x st with ⟨tr1, r⟩
  rcases r with e | ⟨a, st1⟩
  · rw [M_bind_error_left f he] at hq
    exact hx st q (by rw [he]; exact hq)
  · rw [M_bind_trace_ok_left f he] at hq
    rcases List.mem_append.mp hq with hq1 | hq2
    · exact hx st q (by rw [he]; exact hq1)
    · exact (hf a) st1 q hq2

theorem NoRecvForward_of_events {α : Type} {x : M α}
    (h : ∀ st, ∀ q ∈ (x st).1, q.1 ≠ Ev.recvForward) : NoRecvForward x := h

theorem countRecvForward_eq_zero {α : Type} {x : M α} (h : NoRecvForward x)
    (st : St) : countRecvForward ((x st)).1 = 0 := by
  rw [countRecvForward, List.countP_eq_zero]
  intro q hq
  have := h st q hq
  simpa using this

theorem countRecvForward_append (t1 t2 : Trace) :
    countRecvForward (t1 ++ t2) = countRecvForward t1 + countRecvForward t2 :=
  List.countP_append _ _ _

theorem recv_forward_char (cfg : Config) (st : St) :
    ∃ st1 r, recv_forward cfg st = ([(Ev.recvForward, st1)], Except.ok (r, st1)) ∧
      (is_pipeline_first_stage cfg = true → r = none) := by
  unfold recv_forward
  by_cases hf : is_pipeline_first_stage cfg = true
  · exact ⟨st, none, by simp only [hf, if_true], fun _ => rfl⟩
  · refine ⟨{ st with fresh := st.fresh + 1 }, some st.fresh, ?_,
      fun hc => absurd hc hf⟩
    simp only [eq_false_of_ne_true hf, Bool.false_eq_true, if_false]

theorem send_forward_char (cfg : Config) (model : ModelInfo) (out : Nat)
    (st : St) :
    ∃ st1, send_forward cfg model out st =
      ([(Ev.sendForward, st1)], Except.ok ((), st1)) := by
  unfold send_forward
  by_cases hl : is_pipeline_last_stage cfg = true
  · refine ⟨st, ?_⟩
    simp only [hl, Bool.not_true, Bool.false_eq_true, if_false]
  · by_cases hs : should_logging cfg (get_pipeline_model_parallel_next_rank cfg) = true
    · refine ⟨{ st with log := add_to_logging_buffer model.output_numel st.log }, ?_⟩
      simp only [eq_false_of_ne_true hl, Bool.not_false, if_true, hs]
    · refine ⟨st, ?_⟩
      simp only [eq_false_of_ne_true hl, Bool.not_false, if_true,
        eq_false_of_ne_true hs, Bool.false_eq_true, if_false]

theorem send_backward_char (cfg : Config) (model : ModelInfo)
    (grad : Option Nat) (st : St) :
    ∃ st1, send_backward cfg model grad st =
      ([(Ev.sendBackward, st1)], Except.ok ((), st1)) := by
  unfold send_backward
  by_cases hfst : is_pipeline_first_stage cfg = true
  · refine ⟨st, ?_⟩
    simp only [hfst, Bool.not_true, Bool.false_eq_true, if_false]
  · by_cases hs : should_logging cfg (get_pipeline_model_parallel_prev_rank cfg) = true
    · refine ⟨{ st with log := add_to_logging_buffer model.input_numel st.log }, ?_⟩
      simp only [eq_false_of_ne_true hfst, Bool.not_false, if_true, hs]
    · refine ⟨st, ?_⟩
      simp only [eq_false_of_ne_true hfst, Bool.not_false, if_true,
        eq_false_of_ne_true hs, Bool.false_eq_true, if_false]

theorem backward_step_char (inp : Option Nat) (out : Nat) (grad : Option Nat)
    (st : St) :
    ∃ st1 r, backward_step inp out grad st =
      ([(Ev.backwardStep, st1)], Except.ok (r, st1)) := by
  unfold backward_step
  cases inp with
  | none => exact ⟨st, none, rfl⟩
  | some t => exact ⟨_, some st.fresh, rfl⟩

theorem send_forward_recv_backward_char (cfg : Config) (model : ModelInfo)
    (out : Nat) (st : St) :
    ∃ st1 r, send_forward_recv_backward cfg model out st =
      ([(Ev.sendForwardRecvBackward, st1)], Except.ok (r, st1)) := by
  unfold send_forward_recv_backward
  by_cases hl : is_pipeline_last_stage cfg = true
  · refine ⟨st, none, ?_⟩
    simp only [hl, Bool.not_true, Bool.false_eq_true, if_false]
  · by_cases hs : should_logging cfg (get_pipeline_model_parallel_next_rank cfg) = true
    · refine ⟨{ st with log := add_to_logging_buffer model.output_numel st.log, fresh := st.fresh + 1 }, some st.fresh, ?_⟩
      simp only [eq_false_of_ne_true hl, Bool.not_false, if_true, hs]
    · refine ⟨{ st with fresh := st.fresh + 1 }, some st.fresh, ?_⟩
      simp only [eq_false_of_ne_true hl, Bool.not_false, if_true,
        eq_false_of_ne_true hs, Bool.false_eq_true, if_false]

theorem send_backward_recv_forward_char (cfg : Config) (model : ModelInfo)
    (grad : Option Nat) (st : St) :
    ∃ st1 r, send_backward_recv_forward cfg model grad st =
      ([(Ev.sendBackwardRecvForward, st1)], Except.ok (r, st1)) := by
  unfold send_backward_recv_forward
  by_cases hfst : is_pipeline_first_stage cfg = true
  · refine ⟨st, none, ?_⟩
    simp only [hfst, Bool.not_true, Bool.false_eq_true, if_false]
  · by_cases hs : should_logging cfg (get_pipeline_model_parallel_prev_rank cfg) = true
    · refine ⟨{ st with log := add_to_logging_buffer model.input_numel st.log, fresh := st.fresh + 1 }, some st.fresh, ?_⟩
      simp only [eq_false_of_ne_true hfst, Bool.not_false, if_true, hs]
    · refine ⟨{ st with fresh := st.fresh + 1 }, some st.fresh, ?_⟩
      simp only [eq_false_of_ne_true hfst, Bool.not_false, if_true,
        eq_false_of_ne_true hs, Bool.false_eq_true, if_false]

theorem recv_backward_char (cfg : Config) (fuel shape : Nat) (st : St) :
    recv_backward cfg fuel shape st = ([], Except.error Err.flushDiverged) ∨
    ∃ tr st1 r, recv_backward cfg fuel shape st = (tr, Except.ok (r, st1)) ∧
      countRecvForward tr = 0 := by
  unfold recv_backward
  by_cases hl : is_pipeline_last_stage cfg = true
  · right
    refine ⟨[(Ev.recvBackward, st)], st, none, ?_, rfl⟩
    simp only [hl, Bool.not_true, Bool.false_eq_true, if_false]
  · simp only [eq_false_of_ne_true hl, Bool.not_false, if_true]
    by_cases he : st.log.logging_buffer.isEmpty = true
    · right
      refine ⟨[(Ev.recvBackward, { st with fresh := st.fresh + 1 })],
        { st with fresh := st.fresh + 1 }, some st.fresh, ?_, rfl⟩
      simp only [he, if_true]
    · simp only [eq_false_of_ne_true he, Bool.false_eq_true, if_false]
      rcases hr : logging_run memory_budget fuel st.log with _ | l
      · left
        rfl
      · right
        refine ⟨[(Ev.flush, { st with log := l }),
            (Ev.recvBackward, { st with log := l, fresh := st.fresh + 1 })],
          { st with log := l, fresh := st.fresh + 1 }, some st.fresh, ?_, rfl⟩
        rfl

theorem final_logging_flush_char (fuel : Nat) (st : St) :
    final_logging_flush fuel st = ([], Except.error Err.flushDiverged) ∨
    ∃ tr st1, final_logging_flush fuel st = (tr, Except.ok ((), st1)) ∧
      countRecvForward tr = 0 := by
  unfold final_logging_flush
  by_cases he : st.log.logging_buffer.isEmpty = true
  · right
    refine ⟨[], st, ?_, rfl⟩
    simp only [he, if_true]
  · simp only [eq_false_of_ne_true he, Bool.false_eq_true, if_false]
    rcases hr : logging_run memory_budget fuel st.log with _ | l
    · left
      rfl
    · right
      refine ⟨[(Ev.flush, { st with log := l })], { st with log := l }, ?_, rfl⟩
      rfl

theorem noRecvF_of_count {α : Type} {x : M α}
    (h : ∀ st, countRecvForward ((x st)).1 = 0) : NoRecvForward x := by
  intro st q hq
  have h0 := h st
  rw [countRecvForward, List.countP_eq_zero] at h0
  have := h0 q hq
  simpa using this

theorem forward_step_noRecvF (cfg : Config) (d : Nat → Rat)
    (input : Option Nat) : NoRecvForward (forward_step cfg d input) := by
  intro st q hq
  rcases forward_step_cases cfg d input st with ⟨h, -⟩ | ⟨st3, out, h, -, -, -, -⟩
  · rw [h] at hq; simp at hq
  · rw [h] at hq
    simp only [List.mem_singleton] at hq
    rw [hq]
    simp

theorem send_forward_noRecvF (cfg : Config) (model : ModelInfo) (out : Nat) :
    NoRecvForward (send_forward cfg model out) := by
  intro st q hq
  obtain ⟨st1, h⟩ := send_forward_char cfg model out st
  rw [h] at hq
  simp only [List.mem_singleton] at hq
  rw [hq]
  simp

theorem send_backward_noRecvF (cfg : Config) (model : ModelInfo)
    (grad : Option Nat) : NoRecvForward (send_backward cfg model grad) := by
  intro st q hq
  obtain ⟨st1, h⟩ := send_backward_char cfg model grad st
  rw [h] at hq
  simp only [List.mem_singleton] at hq
  rw [hq]
  simp

theorem backward_step_noRecvF (inp : Option Nat) (out : Nat)
    (grad : Option Nat) : NoRecvForward (backward_step inp out grad) := by
  intro st q hq
  obtain ⟨st1, r, h⟩ := backward_step_char inp out grad st
  rw [h] at hq
  simp only [List.mem_singleton] at hq
  rw [hq]
  simp

theorem send_forward_recv_backward_noRecvF (cfg : Config) (model : ModelInfo)
    (out : Nat) : NoRecvForward (send_forward_recv_backward cfg model out) := by
  intro st q hq
  obtain ⟨st1, r, h⟩ := send_forward_recv_backward_char cfg model out st
  rw [h] at hq
  simp only [List.mem_singleton] at hq
  rw [hq]
  simp

theorem send_backward_recv_forward_noRecvF (cfg : Config) (model : ModelInfo)
    (grad : Option Nat) :
    NoRecvForward (send_backward_recv_forward cfg model grad) := by
  intro st q hq
  obtain ⟨st1, r, h⟩ := send_backward_recv_forward_char cfg model grad st
  rw [h] at hq
  simp only [List.mem_singleton] at hq
  rw [hq]
  simp

theorem recv_backward_noRecvF (cfg : Config) (fuel shape : Nat) :
    NoRecvForward (recv_backward cfg fuel shape) := by
  intro st q hq
  rcases recv_backward_char cfg fuel shape st with h | ⟨tr, st1, r, h, hcount⟩
  · rw [h] at hq; simp at hq
  · rw [h] at hq
    rw [countRecvForward, List.countP_eq_zero] at hcount
    have := hcount q hq
    simpa using this

theorem final_logging_flush_noRecvF (fuel : Nat) :
    NoRecvForward (final_logging_flush fuel) := by
  intro st q hq
  rcases final_logging_flush_char fuel st with h | ⟨tr, st1, h, hcount⟩
  · rw [h] at hq; simp at hq
  · rw [h] at hq
    rw [countRecvForward, List.countP_eq_zero] at hcount
    have := hcount q hq
    simpa using this

theorem pushPair_noRecvF (inp : Option Nat) (out : Nat) :
    NoRecvForward (pushPair inp out) := by
  intro st q hq
  rw [pushPair_eq] at hq
  simp only [List.mem_singleton] at hq
  rw [hq]
  simp

theorem popPair_noRecvF : NoRecvForward popPair := by
  intro st q hq
  rcases popPair_cases st with ⟨h, -⟩ | ⟨inp, is1, out, os1, -, -, h⟩
  · rw [h] at hq; simp at hq
  · rw [h] at hq
    simp only [List.mem_singleton] at hq
    rw [hq]
    simp

theorem raiseErr_noRecvF {α : Type} (e : Err) :
    NoRecvForward (raiseErr e : M α) := by
  intro st q hq
  rw [raiseErr_eq] at hq
  simp at hq

theorem return_loss_noRecvF : NoRecvForward return_loss := by
  intro st q hq
  rw [return_loss_eq] at hq
  simp at hq

theorem steadyLoop_noRecvF (cfg : Config) (model : ModelInfo) (d : Nat → Rat)
    (fuel n : Nat) :
    ∀ (k i : Nat) (input : Option Nat),
      NoRecvForward (steadyLoop cfg model d fuel n k i input) := by
  intro k
  induction k with
  | zero =>
    intro i input
    rw [steadyLoop]
    exact NoRecvForward_pure ()
  | succ k ih =>
    intro i input
    rw [steadyLoop]
    refine NoRecvForward_bind (forward_step_noRecvF cfg d input) fun out => ?_
    dsimp only
    split
    · refine NoRecvForward_bind (send_forward_noRecvF cfg model out) fun _ => ?_
      refine NoRecvForward_bind (raiseErr_noRecvF Err.missingShapeArgument)
        fun grad => ?_
      refine NoRecvForward_bind (pushPair_noRecvF input out) fun _ => ?_
      refine NoRecvForward_bind popPair_noRecvF fun popRes => ?_
      refine NoRecvForward_bind (backward_step_noRecvF popRes.1 popRes.2 grad)
        fun igrad => ?_
      dsimp only
      split
      · refine NoRecvForward_bind (send_backward_noRecvF cfg model igrad)
          fun _ => ?_
        exact NoRecvForward_bind (NoRecvForward_pure popRes.1)
          fun next => ih (i + 1) next
      · exact NoRecvForward_bind
          (send_backward_recv_forward_noRecvF cfg model igrad)
          fun next => ih (i + 1) next
    · refine NoRecvForward_bind
        (send_forward_recv_backward_noRecvF cfg model out) fun grad => ?_
      refine NoRecvForward_bind (pushPair_noRecvF input out) fun _ => ?_
      refine NoRecvForward_bind popPair_noRecvF fun popRes => ?_
      refine NoRecvForward_bind (backward_step_noRecvF popRes.1 popRes.2 grad)
        fun igrad => ?_
      dsimp only
      split
      · refine NoRecvForward_bind (send_backward_noRecvF cfg model igrad)
          fun _ => ?_
        exact NoRecvForward_bind (NoRecvForward_pure popRes.1)
          fun next => ih (i + 1) next
      · exact NoRecvForward_bind
          (send_backward_recv_forward_noRecvF cfg model igrad)
          fun next => ih (i + 1) next

theorem cooldownLoop_noRecvF (cfg : Config) (model : ModelInfo) (fuel : Nat) :
    ∀ k : Nat, NoRecvForward (cooldownLoop cfg model fuel k) := by
  intro k
  induction k with
  | zero =>
    rw [cooldownLoop]
    exact NoRecvForward_pure ()
  | succ k ih =>
    rw [cooldownLoop]
    refine NoRecvForward_bind popPair_noRecvF fun popRes => ?_
    refine NoRecvForward_bind (recv_backward_noRecvF cfg fuel model.output_numel)
      fun grad => ?_
    refine NoRecvForward_bind (backward_step_noRecvF popRes.1 popRes.2 grad)
      fun igrad => ?_
    exact NoRecvForward_bind (send_backward_noRecvF cfg model igrad) fun _ => ih

theorem countRecvForward_cons_recvF (st : St) (tr : Trace) :
    countRecvForward ((Ev.recvForward, st) :: tr) = countRecvForward tr + 1 := by
  rw [countRecvForward, countRecvForward, List.countP_cons]
  simp

theorem countRecvForward_cons_other (ev : Ev) (st : St) (tr : Trace)
    (h : ev ≠ Ev.recvForward) :
    countRecvForward ((ev, st) :: tr) = countRecvForward tr := by
  rw [countRecvForward, countRecvForward, List.countP_cons]
  simp only [beq_iff_eq]
  rw [if_neg (by simpa using h)]
  omega

theorem warmupLoop_char (cfg : Config) (model : ModelInfo) (d : Nat → Rat) :
    ∀ (k : Nat) (st : St),
      ∃ tr st', warmupLoop cfg model d k st = (tr, Except.ok ((), st')) ∧
        countRecvForward tr = k ∧
        st'.input_tensors.length = st.input_tensors.length + k ∧
        st'.output_tensors.length = st.output_tensors.length + k ∧
        st'.pushed.length = st.pushed.length + k ∧
        st'.popped = st.popped ∧
        (is_pipeline_last_stage cfg = false → st'.loss = st.loss) := by
  intro k
  induction k with
  | zero =>
    intro st
    exact ⟨[], st, by rw [warmupLoop]; rfl, rfl, rfl, rfl, rfl, rfl, fun _ => rfl⟩
  | succ k ih =>
    intro st
    obtain ⟨st1, r, h1, hr⟩ := recv_forward_char cfg st
    have hc1 : CommFact cfg st st1 :=
      (recv_forward_comm cfg st).2 r st1 (by rw [h1])
    have hna : (is_pipeline_first_stage cfg && r.isSome) = false := by
      by_cases hf : is_pipeline_first_stage cfg = true
      · rw [hf, hr hf]; rfl
      · rw [eq_false_of_ne_true hf]; rfl
    rcases forward_step_cases cfg d r st1 with ⟨-, hass⟩ |
        ⟨st3, out, h2, hfr2, hlog2, hloss2, -⟩
    · rw [hna] at hass; exact absurd hass (by simp)
    · obtain ⟨st4, h3⟩ := send_forward_char cfg model out st3
      have hc4 : CommFact cfg st3 st4 :=
        (send_forward_comm cfg model out st3).2 () st4 (by rw [h3])
      obtain ⟨trR, st', hR, hcount, hlen1, hlen2, hlen3, hpop, hloss⟩ :=
        ih { st4 with input_tensors := st4.input_tensors ++ [r],
                      output_tensors := st4.output_tensors ++ [out],
                      pushed := st4.pushed ++ [(r, out)] }
      have hpush := pushPair_eq r out st4
      refine ⟨_, st', by
        rw [warmupLoop]
        exact M_bind_ok h1 (M_bind_ok h2 (M_bind_ok h3 (M_bind_ok hpush hR))),
        ?_, ?_, ?_, ?_, ?_, ?_⟩
      · rw [List.singleton_append]
        rw [countRecvForward_cons_recvF]
        rw [List.singleton_append, countRecvForward_cons_other _ _ _ (by simp)]
        rw [List.singleton_append, countRecvForward_cons_other _ _ _ (by simp)]
        rw [List.singleton_append, countRecvForward_cons_other _ _ _ (by simp)]
        rw [hcount]
      · obtain ⟨⟨g1, -, -, -⟩, -, -⟩ := hc1
        obtain ⟨⟨f1, -, -, -⟩, -, -⟩ := hc4
        obtain ⟨i1, -, -, -⟩ := hfr2
        simp only at hlen1
        rw [hlen1]
        simp only [List.length_append, List.length_singleton]
        rw [f1, i1, g1]
        omega
      · obtain ⟨⟨-, g2, -, -⟩, -, -⟩ := hc1
        obtain ⟨⟨-, f2, -, -⟩, -, -⟩ := hc4
        obtain ⟨-, i2, -, -⟩ := hfr2
        simp only at hlen2
        rw [hlen2]
        simp only [List.length_append, List.length_singleton]
        rw [f2, i2, g2]
        omega
      · obtain ⟨⟨-, -, g3, -⟩, -, -⟩ := hc1
        obtain ⟨⟨-, -, f3, -⟩, -, -⟩ := hc4
        obtain ⟨-, -, i3, -⟩ := hfr2
        simp only at hlen3
        rw [hlen3]
        simp only [List.length_append, List.length_singleton]
        rw [f3, i3, g3]
        omega
      · obtain ⟨⟨-, -, -, g4⟩, -, -⟩ := hc1
        obtain ⟨⟨-, -, -, f4⟩, -, -⟩ := hc4
        obtain ⟨-, -, -, i4⟩ := hfr2
        simp only at hpop
        rw [hpop, f4, i4, g4]
      · intro hlast
        obtain ⟨-, gl, -⟩ := hc1
        obtain ⟨-, fl, -⟩ := hc4
        have := hloss hlast
        simp only at this
        rw [this, fl, hloss2 hlast, gl]

/-- C6 (amended): in every run of the schedule the number of simple
receive-forward operations in the trace is the warm-up count plus one extra
receive exactly when `num_microbatches > 0` — the guard the code actually
tests at schedule.py:229 — rather than when microbatches remain after
warm-up; in particular when `0 < num_microbatches = num_warmup_microbatches`
the extra priming receive is still issued although no steady-state iteration
will consume it. -/
theorem claim_C6 (cfg : Config) (model : ModelInfo) (d : Nat → Rat)
    (fuel : Nat) :
    countRecvForward (run_schedule cfg model d fuel).1 =
      (num_warmup_microbatches (get_pipeline_model_parallel_world_size cfg)
          (get_pipeline_model_parallel_rank cfg)).toNat +
        (if 0 < get_num_microbatches cfg.args then 1 else 0) := by
  have hinit : init_step_state initSt = ([], Except.ok ((), initSt)) := rfl
  obtain ⟨trW, stW, hW, hcW, -, -, -, -, -⟩ :=
    warmupLoop_char cfg model d
      (num_warmup_microbatches (get_pipeline_model_parallel_world_size cfg)
        (get_pipeline_model_parallel_rank cfg)).toNat initSt
  rw [run_schedule, pipedream_flush_schedule]
  rw [M_bind_trace_ok_left _ hinit, List.nil_append]
  rw [M_bind_trace_ok_left _ hW, countRecvForward_append, hcW]
  dsimp only
  by_cases hn : 0 < get_num_microbatches cfg.args
  · obtain ⟨st1, r, h1, -⟩ := recv_forward_char cfg stW
    rw [if_pos hn, if_pos hn]
    rw [M_bind_trace_ok_left _ h1, countRecvForward_append,
      countRecvForward_cons_recvF]
    rw [countRecvForward_eq_zero
      (NoRecvForward_bind (steadyLoop_noRecvF cfg model d fuel _ _ _ _)
        fun _ => NoRecvForward_bind (cooldownLoop_noRecvF cfg model fuel _)
          fun _ => NoRecvForward_bind (final_logging_flush_noRecvF fuel)
            fun _ => return_loss_noRecvF) st1]
    rfl
  · have hpure : (pure none : M (Option Nat)) stW =
        ([], Except.ok (none, stW)) := rfl
    rw [if_neg hn, if_neg hn]
    rw [M_bind_trace_ok_left _ hpure, List.nil_append]
    rw [countRecvForward_eq_zero
      (NoRecvForward_bind (steadyLoop_noRecvF cfg model d fuel _ _ _ _)
        fun _ => NoRecvForward_bind (cooldownLoop_noRecvF cfg model fuel _)
          fun _ => NoRecvForward_bind (final_logging_flush_noRecvF fuel)
            fun _ => return_loss_noRecvF) stW]

theorem steadyLoop_zero (cfg : Config) (model : ModelInfo) (d : Nat → Rat)
    (fuel n i : Nat) (input : Option Nat) (st : St) :
    steadyLoop cfg model d fuel n 0 i input st = ([], Except.ok ((), st)) := by
  rw [steadyLoop]
  rfl

theorem steadyLoop_first_iteration_err (cfg : Config) (model : ModelInfo)
    (d : Nat → Rat) (fuel n k : Nat) (input : Option Nat) (st : St) :
    ∃ e, (steadyLoop cfg model d fuel n (k + 1) 0 input st).2 =
      Except.error e := by
  rw [steadyLoop]
  rcases forward_step_cases cfg d input st with ⟨herr, -⟩ |
      ⟨st3, out, h2, -, -, -, -⟩
  · exact ⟨Err.assertionFailed, by rw [M_bind_error_left _ herr]⟩
  · obtain ⟨st4, h3⟩ := send_forward_char cfg model out st3
    refine ⟨Err.missingShapeArgument, ?_⟩
    simp only [M_bind_apply, h2, h3, raiseErr, Nat.reduceBEq, if_true]

theorem cooldownLoop_ok (cfg : Config) (model : ModelInfo) (fuel : Nat) :
    ∀ (k : Nat) (st st' : St) (tr : Trace),
      cooldownLoop cfg model fuel k st = (tr, Except.ok ((), st')) →
      st'.input_tensors = st.input_tensors.drop k ∧
      st'.output_tensors = st.output_tensors.drop k ∧
      st'.pushed = st.pushed ∧
      st'.popped.length = st.popped.length + k ∧
      st'.loss = st.loss := by
  intro k
  induction k with
  | zero =>
    intro st st' tr h
    rw [cooldownLoop, M_pure_apply] at h
    simp only [Prod.mk.injEq, Except.ok.injEq, true_and] at h
    obtain ⟨-, hst⟩ := h
    subst hst
    exact ⟨(List.drop_zero _).symm, (List.drop_zero _).symm, rfl,
      (Nat.add_zero _).symm, rfl⟩
  | succ k ih =>
    intro st st' tr h
    rw [cooldownLoop] at h
    obtain ⟨t1, popRes, st1, t2, hpop, hrest, -⟩ := M_bind_ok_inv h
    rcases popPair_cases st with ⟨hperr, -⟩ |
        ⟨inp, is1, out, os1, hin, hout, hpeq⟩
    · rw [hperr] at hpop
      exact absurd hpop (by simp)
    · rw [hpeq] at hpop
      simp only [Prod.mk.injEq, Except.ok.injEq] at hpop
      obtain ⟨-, -, hst1⟩ := hpop
      obtain ⟨t3, grad, st2, t4, hrb, hrest2, -⟩ := M_bind_ok_inv hrest
      have hc2 : CommFact cfg st1 st2 :=
        (recv_backward_comm cfg fuel model.output_numel st1).2 grad st2
          (by rw [hrb])
      obtain ⟨t5, igrad, st3, t6, hbs, hrest3, -⟩ := M_bind_ok_inv hrest2
      have hc3 : CommFact cfg st2 st3 :=
        (backward_step_comm cfg popRes.1 popRes.2 grad st2).2 igrad st3
          (by rw [hbs])
      obtain ⟨t7, u, st4, t8, hsb, hrest4, -⟩ := M_bind_ok_inv hrest3
      have hc4 : CommFact cfg st3 st4 :=
        (send_backward_comm cfg model igrad st3).2 u st4 (by rw [hsb])
      obtain ⟨d1, d2, d3, d4, d5⟩ := ih st4 st' t8 hrest4
      obtain ⟨⟨a1, a2, a3, a4⟩, al, -, -⟩ := hc2
      obtain ⟨⟨b1, b2, b3, b4⟩, bl, -, -⟩ := hc3
      obtain ⟨⟨c1, c2, c3, c4⟩, cl, -, -⟩ := hc4
      have e1 : st1.input_tensors = is1 := by rw [← hst1]
      have e2 : st1.output_tensors = os1 := by rw [← hst1]
      have e3 : st1.pushed = st.pushed := by rw [← hst1]
      have e4 : st1.popped = st.popped ++ [(inp, out)] := by rw [← hst1]
      have e5 : st1.loss = st.loss := by rw [← hst1]
      refine ⟨?_, ?_, ?_, ?_, ?_⟩
      · rw [d1, c1, b1, a1, e1, hin, List.drop_succ_cons]
      · rw [d2, c2, b2, a2, e2, hout, List.drop_succ_cons]
      · rw [d3, c3, b3, a3, e3]
      · rw [d4, c4, b4, a4, e4]
        simp only [List.length_append, List.length_singleton]
        omega
      · rw [d5, cl, bl, al, e5]

theorem tail_ok_char (cfg : Config) (model : ModelInfo) (d : Nat → Rat)
    (fuel R W : Nat) (input : Option Nat) (stP : St) (t : Trace) (L : Rat)
    (stF : St)
    (h : (steadyLoop cfg model d fuel R R 0 input >>= fun _ =>
        cooldownLoop cfg model fuel W >>= fun _ =>
        final_logging_flush fuel >>= fun _ => return_loss) stP =
      (t, Except.ok (L, stF))) :
    R = 0 ∧ L = stF.loss ∧ stF.loss = stP.loss ∧
    stF.input_tensors = stP.input_tensors.drop W ∧
    stF.output_tensors = stP.output_tensors.drop W ∧
    stF.pushed = stP.pushed ∧
    stF.popped.length = stP.popped.length + W := by
  rcases R with _ | m
  · obtain ⟨t1, u, stS, t2, hS, h5, -⟩ := M_bind_ok_inv h
    rw [steadyLoop_zero] at hS
    simp only [Prod.mk.injEq, Except.ok.injEq, true_and] at hS
    obtain ⟨-, hstS⟩ := hS
    subst hstS
    obtain ⟨t3, u2, stC, t4, hC, h6, -⟩ := M_bind_ok_inv h5
    obtain ⟨c1, c2, c3, c4, c5⟩ := cooldownLoop_ok cfg model fuel W _ stC t3 hC
    obtain ⟨t5, u3, stFl, t6, hFl, h7, -⟩ := M_bind_ok_inv h6
    have hcF : CommFact cfg stC stFl :=
      (final_logging_flush_comm cfg fuel stC).2 u3 stFl (by rw [hFl])
    rw [return_loss_eq] at h7
    simp only [Prod.mk.injEq, Except.ok.injEq] at h7
    obtain ⟨-, hL, hstF⟩ := h7
    subst hstF
    obtain ⟨⟨f1, f2, f3, f4⟩, fl, -, -⟩ := hcF
    refine ⟨rfl, hL.symm, ?_, ?_, ?_, ?_, ?_⟩
    · rw [fl, c5]
    · rw [f1, c1]
    · rw [f2, c2]
    · rw [f3, c3]
    · rw [f4, c4]
  · obtain ⟨t1, u, stS, t2, hS, -, -⟩ := M_bind_ok_inv h
    obtain ⟨e, he⟩ :=
      steadyLoop_first_iteration_err cfg model d fuel (m + 1) m input stP
    rw [hS] at he
    exact absurd he (by simp)

theorem run_ok_assemble (cfg : Config) (K : Nat) (stW0 stP stF : St) (L : Rat)
    (hcP : CommFact cfg stW0 stP)
    (hi : stW0.input_tensors.length = K)
    (ho : stW0.output_tensors.length = K)
    (hpu : stW0.pushed.length = K)
    (hpo : stW0.popped = [])
    (hlo : stW0.loss = 0)
    (hLeq : L = stF.loss)
    (hlossP : stF.loss = stP.loss)
    (hinF : stF.input_tensors = stP.input_tensors.drop K)
    (houtF : stF.output_tensors = stP.output_tensors.drop K)
    (hpushF : stF.pushed = stP.pushed)
    (hpopF : stF.popped.length = stP.popped.length + K) :
    L = stF.loss ∧ stF.loss = 0 ∧
    stF.input_tensors = [] ∧ stF.output_tensors = [] ∧
    stF.pushed.length = K ∧ stF.popped.length = K := by
  obtain ⟨⟨p1, p2, p3, p4⟩, pl, -, -⟩ := hcP
  refine ⟨hLeq, ?_, ?_, ?_, ?_, ?_⟩
  · rw [hlossP, pl, hlo]
  · rw [hinF, p1, ← hi, List.drop_length]
  · rw [houtF, p2, ← ho, List.drop_length]
  · rw [hpushF, p3, hpu]
  · rw [hpopF, p4, hpo]
    simp

theorem run_ok_char (cfg : Config) (model : ModelInfo) (d : Nat → Rat)
    (fuel : Nat) (L : Rat) (stF : St)
    (hok : (run_schedule cfg model d fuel).2 = Except.ok (L, stF)) :
    (get_num_microbatches cfg.args -
      num_warmup_microbatches (get_pipeline_model_parallel_world_size cfg)
        (get_pipeline_model_parallel_rank cfg)).toNat = 0 ∧
    L = stF.loss ∧ stF.loss = 0 ∧
    stF.input_tensors = [] ∧ stF.output_tensors = [] ∧
    stF.pushed.length =
      (num_warmup_microbatches (get_pipeline_model_parallel_world_size cfg)
        (get_pipeline_model_parallel_rank cfg)).toNat ∧
    stF.popped.length =
      (num_warmup_microbatches (get_pipeline_model_parallel_world_size cfg)
        (get_pipeline_model_parallel_rank cfg)).toNat := by
  rcases hrun : run_schedule cfg model d fuel with ⟨tr, r⟩
  rw [hrun] at hok
  dsimp only at hok
  subst hok
  rw [run_schedule, pipedream_flush_schedule] at hrun
  obtain ⟨t1, u1, stI, t2, hInit, h2, -⟩ := M_bind_ok_inv hrun
  have hinit0 : init_step_state initSt = ([], Except.ok ((), initSt)) := rfl
  rw [hinit0] at hInit
  simp only [Prod.mk.injEq, Except.ok.injEq, true_and] at hInit
  obtain ⟨-, hstI⟩ := hInit
  subst hstI
  obtain ⟨t3, u2, stW, t4, hW, h3, -⟩ := M_bind_ok_inv h2
  obtain ⟨trW, stW0, hWc, hcW, hl1, hl2, hl3, hpopW, hlossW⟩ :=
    warmupLoop_char cfg model d
      (num_warmup_microbatches (get_pipeline_model_parallel_world_size cfg)
        (get_pipeline_model_parallel_rank cfg)).toNat initSt
  have hW' := hW
  rw [hWc] at hW
  simp only [Prod.mk.injEq, Except.ok.injEq, true_and] at hW
  obtain ⟨-, hstW⟩ := hW
  subst hstW
  have hWloss : stW0.loss = 0 := by
    by_cases hl : is_pipeline_last_stage cfg = true
    · have hr : get_pipeline_model_parallel_rank cfg =
          get_pipeline_model_parallel_world_size cfg - 1 := by
        have h := hl
        unfold is_pipeline_last_stage at h
        exact beq_iff_eq.mp h
      have hk0 : (num_warmup_microbatches
          (get_pipeline_model_parallel_world_size cfg)
          (get_pipeline_model_parallel_rank cfg)).toNat = 0 := by
        unfold num_warmup_microbatches
        omega
      rw [hk0, warmupLoop, M_pure_apply] at hW'
      simp only [Prod.mk.injEq, Except.ok.injEq, true_and] at hW'
      obtain ⟨-, h⟩ := hW'
      rw [← h]
      rfl
    · rw [hlossW (eq_false_of_ne_true hl)]
      rfl
  have hWi : stW0.input_tensors.length =
      (num_warmup_microbatches (get_pipeline_model_parallel_world_size cfg)
        (get_pipeline_model_parallel_rank cfg)).toNat := by
    rw [hl1]
    show 0 + _ = _
    omega
  have hWo : stW0.output_tensors.length =
      (num_warmup_microbatches (get_pipeline_model_parallel_world_size cfg)
        (get_pipeline_model_parallel_rank cfg)).toNat := by
    rw [hl2]
    show 0 + _ = _
    omega
  have hWp : stW0.pushed.length =
      (num_warmup_microbatches (get_pipeline_model_parallel_world_size cfg)
        (get_pipeline_model_parallel_rank cfg)).toNat := by
    rw [hl3]
    show 0 + _ = _
    omega
  have hWq : stW0.popped = [] := by
    rw [hpopW]
    rfl
  dsimp only at h3
  by_cases hn : get_num_microbatches cfg.args > 0
  · rw [if_pos hn] at h3
    obtain ⟨t5, input, stP, t6, hPr, h4, -⟩ := M_bind_ok_inv h3
    have hcP : CommFact cfg stW0 stP :=
      (recv_forward_comm cfg stW0).2 input stP (by rw [hPr])
    obtain ⟨hR0, hLeq, hlossP, hinF, houtF, hpushF, hpopF⟩ :=
      tail_ok_char cfg model d fuel _ _ input stP t6 L stF h4
    obtain ⟨a1, a2, a3, a4, a5, a6⟩ :=
      run_ok_assemble cfg _ stW0 stP stF L hcP hWi hWo hWp hWq hWloss
        hLeq hlossP hinF houtF hpushF hpopF
    exact ⟨hR0, a1, a2, a3, a4, a5, a6⟩
  · rw [if_neg hn] at h3
    obtain ⟨t5, input, stP, t6, hPr, h4, -⟩ := M_bind_ok_inv h3
    rw [M_pure_apply] at hPr
    simp only [Prod.mk.injEq, Except.ok.injEq] at hPr
    obtain ⟨-, -, hstP⟩ := hPr
    subst hstP
    obtain ⟨hR0, hLeq, hlossP, hinF, houtF, hpushF, hpopF⟩ :=
      tail_ok_char cfg model d fuel _ _ input stW0 t6 L stF h4
    obtain ⟨a1, a2, a3, a4, a5, a6⟩ :=
      run_ok_assemble cfg _ stW0 stW0 stF L (CommFact_refl cfg stW0)
        hWi hWo hWp hWq hWloss hLeq hlossP hinF houtF hpushF hpopF
    exact ⟨hR0, a1, a2, a3, a4, a5, a6⟩

/-- C5: for every execution of the schedule that runs to completion, the
returned scalar loss on the last stage equals the sum over the
`num_microbatches` microbatches of the per-microbatch loss divided by
`num_microbatches` (schedule.py:76-79), and every other stage returns a
running loss of 0.  (Completion forces the steady-state phase to be empty —
schedule.py:241 raises otherwise — so on the last stage, whose warm-up count
is 0, completion forces `num_microbatches <= 0` and both sides are 0; on
other stages the loss accumulator is never touched.) -/
theorem claim_C5 (cfg : Config) (model : ModelInfo) (d : Nat → Rat)
    (fuel : Nat) (L : Rat) (stF : St)
    (hok : (run_schedule cfg model d fuel).2 = Except.ok (L, stF)) :
    (is_pipeline_last_stage cfg = true →
      L = ∑ i ∈ Finset.range (get_num_microbatches cfg.args).toNat,
        d i / ((get_num_microbatches cfg.args : Int) : Rat)) ∧
    (is_pipeline_last_stage cfg = false → L = 0) := by
  obtain ⟨hR0, hLeq, hloss0, -, -, -, -⟩ := run_ok_char cfg model d fuel L stF hok
  constructor
  · intro hl
    have hr : get_pipeline_model_parallel_rank cfg =
        get_pipeline_model_parallel_world_size cfg - 1 := by
      have h := hl
      unfold is_pipeline_last_stage at h
      exact beq_iff_eq.mp h
    have hn0 : (get_num_microbatches cfg.args).toNat = 0 := by
      unfold num_warmup_microbatches at hR0
      omega
    rw [hn0, Finset.range_zero, Finset.sum_empty, hLeq, hloss0]
  · intro _
    rw [hLeq, hloss0]

set_option maxHeartbeats 1000000 in
theorem claim_C5_witness :
    (is_pipeline_last_stage ⟨4, 2, ⟨2, 2, false, 1⟩⟩ = true →
      (0 : Rat) = ∑ i ∈
          Finset.range (get_num_microbatches (⟨2, 2, false, 1⟩ : Args)).toNat,
        (fun _ : Nat => (0 : Rat)) i /
          ((get_num_microbatches (⟨2, 2, false, 1⟩ : Args) : Int) : Rat)) ∧
    (is_pipeline_last_stage ⟨4, 2, ⟨2, 2, false, 1⟩⟩ = false → (0 : Rat) = 0) :=
  claim_C5 ⟨4, 2, ⟨2, 2, false, 1⟩⟩ ⟨3, 5⟩ (fun _ => 0) 0 0
    ⟨[], [], 0, ⟨[], 0⟩, 0, 5, [(some 0, 1)], [(some 0, 1)]⟩
    (by
      simp only [run_schedule, pipedream_flush_schedule, warmupLoop, steadyLoop,
        cooldownLoop, init_step_state, recv_forward, forward_step, send_forward,
        send_backward, recv_backward, send_forward_recv_backward,
        send_backward_recv_forward, pushPair, popPair, final_logging_flush,
        return_loss, raiseErr, M_bind_apply, M_pure_apply, initSt,
        is_pipeline_first_stage, is_pipeline_last_stage,
        get_pipeline_model_parallel_rank, get_pipeline_model_parallel_world_size,
        get_pipeline_model_parallel_next_rank, get_pipeline_model_parallel_prev_rank,
        should_logging, add_to_logging_buffer, get_num_microbatches,
        num_warmup_microbatches, num_microbatches_remaining, List.isEmpty_nil,
        Int.reduceSub, Int.reduceAdd, Int.reduceToNat, Int.reduceDiv, Int.reduceBEq,
        Int.reduceLT, Nat.reduceAdd, Nat.reduceSub, Nat.reduceBEq, beq_iff_eq,
        reduceIte, Bool.not_true, Bool.not_false, Option.isSome, Bool.and_true,
        Bool.and_false, Bool.true_and, Bool.false_and, Bool.or_true, Bool.or_false,
        Bool.true_or, Bool.false_or, List.map_append, List.map_cons, List.map_nil,
        List.append_assoc, List.nil_append, List.append_nil, List.cons_append,
        List.singleton_append]
      rfl)

/-- C10: for every execution of the schedule that runs to completion under
the precondition `num_microbatches >= num_warmup_microbatches >= 0`, both
in-flight queues are empty when the function returns, and the ghost push
and pop histories each hold exactly `num_warmup_microbatches` pairs:
warm-up pushed them and cooldown popped them all. -/
theorem claim_C10 (cfg : Config) (model : ModelInfo) (d : Nat → Rat)
    (fuel : Nat) (L : Rat) (stF : St)
    (h0 : 0 ≤ num_warmup_microbatches
      (get_pipeline_model_parallel_world_size cfg)
      (get_pipeline_model_parallel_rank cfg))
    (h1 : num_warmup_microbatches
        (get_pipeline_model_parallel_world_size cfg)
        (get_pipeline_model_parallel_rank cfg) ≤ get_num_microbatches cfg.args)
    (hok : (run_schedule cfg model d fuel).2 = Except.ok (L, stF)) :
    stF.input_tensors = [] ∧ stF.output_tensors = [] ∧
    stF.pushed.length =
      (num_warmup_microbatches (get_pipeline_model_parallel_world_size cfg)
        (get_pipeline_model_parallel_rank cfg)).toNat ∧
    stF.popped.length =
      (num_warmup_microbatches (get_pipeline_model_parallel_world_size cfg)
        (get_pipeline_model_parallel_rank cfg)).toNat := by
  obtain ⟨-, -, -, h4, h5, h6, h7⟩ := run_ok_char cfg model d fuel L stF hok
  exact ⟨h4, h5, h6, h7⟩

set_option maxHeartbeats 1000000 in
theorem claim_C10_witness :
    (⟨[], [], 0, ⟨[], 0⟩, 0, 5, [(some 0, 1)], [(some 0, 1)]⟩ :
        St).input_tensors = [] ∧
    (⟨[], [], 0, ⟨[], 0⟩, 0, 5, [(some 0, 1)], [(some 0, 1)]⟩ :
        St).output_tensors = [] ∧
    (⟨[], [], 0, ⟨[], 0⟩, 0, 5, [(some 0, 1)], [(some 0, 1)]⟩ :
        St).pushed.length =
      (num_warmup_microbatches
        (get_pipeline_model_parallel_world_size ⟨4, 2, ⟨2, 2, false, 1⟩⟩)
        (get_pipeline_model_parallel_rank ⟨4, 2, ⟨2, 2, false, 1⟩⟩)).toNat ∧
    (⟨[], [], 0, ⟨[], 0⟩, 0, 5, [(some 0, 1)], [(some 0, 1)]⟩ :
        St).popped.length =
      (num_warmup_microbatches
        (get_pipeline_model_parallel_world_size ⟨4, 2, ⟨2, 2, false, 1⟩⟩)
        (get_pipeline_model_parallel_rank ⟨4, 2, ⟨2, 2, false, 1⟩⟩)).toNat :=
  claim_C10 ⟨4, 2, ⟨2, 2, false, 1⟩⟩ ⟨3, 5⟩ (fun _ => 0) 0 0
    ⟨[], [], 0, ⟨[], 0⟩, 0, 5, [(some 0, 1)], [(some 0, 1)]⟩
    (by decide) (by decide)
    (by
      simp only [run_schedule, pipedream_flush_schedule, warmupLoop, steadyLoop,
        cooldownLoop, init_step_state, recv_forward, forward_step, send_forward,
        send_backward, recv_backward, send_forward_recv_backward,
        send_backward_recv_forward, pushPair, popPair, final_logging_flush,
        return_loss, raiseErr, M_bind_apply, M_pure_apply, initSt,
        is_pipeline_first_stage, is_pipeline_last_stage,
        get_pipeline_model_parallel_rank, get_pipeline_model_parallel_world_size,
        get_pipeline_model_parallel_next_rank, get_pipeline_model_parallel_prev_rank,
        should_logging, add_to_logging_buffer, get_num_microbatches,
        num_warmup_microbatches, num_microbatches_remaining, List.isEmpty_nil,
        Int.reduceSub, Int.reduceAdd, Int.reduceToNat, Int.reduceDiv, Int.reduceBEq,
        Int.reduceLT, Nat.reduceAdd, Nat.reduceSub, Nat.reduceBEq, beq_iff_eq,
        reduceIte, Bool.not_true, Bool.not_false, Option.isSome, Bool.and_true,
        Bool.and_false, Bool.true_and, Bool.false_and, Bool.or_true, Bool.or_false,
        Bool.true_or, Bool.false_or, List.map_append, List.map_cons, List.map_nil,
        List.append_assoc, List.nil_append, List.append_nil, List.cons_append,
        List.singleton_append]
      rfl)

theorem getD_zero_of_allzero (l : List Nat) (i : Nat)
    (h : ∀ x ∈ l, x = 0) : l.getD i 0 = 0 := by
  by_cases hi : i < l.length
  · rw [List.getD_eq_getElem _ _ hi]
    exact h _ (List.getElem_mem hi)
  · exact List.getD_eq_default _ _ (by omega)

theorem getD_concat_self (l : List Nat) (x : Nat) :
    (l ++ [x]).getD l.length 0 = x := by
  rw [List.getD_append_right l [x] 0 l.length (le_refl _)]
  simp

theorem logging_iteration_clear (budget i : Nat) (s : LogState)
    (hov : budget < s.logged_size_in_bytes + s.logging_buffer.getD i 0 * 4) :
    logging_iteration budget i s = ⟨[], 0⟩ := by
  unfold logging_iteration
  dsimp only
  rw [if_pos hov]

theorem logging_iteration_grow (budget i : Nat) (s : LogState)
    (hov : ¬ budget < s.logged_size_in_bytes + s.logging_buffer.getD i 0 * 4) :
    logging_iteration budget i s =
      ⟨s.logging_buffer ++ [s.logging_buffer.getD i 0],
        s.logged_size_in_bytes + s.logging_buffer.getD i 0 * 4⟩ := by
  unfold logging_iteration
  dsimp only
  rw [if_neg hov]

theorem logging_loop_allzero (budget : Nat) :
    ∀ (fuel i : Nat) (s : LogState),
      (∀ x ∈ s.logging_buffer, x = 0) →
      s.logged_size_in_bytes ≤ budget →
      i < s.logging_buffer.length →
      logging_loop budget fuel i s = none := by
  intro fuel
  induction fuel with
  | zero => intro i s _ _ _; rfl
  | succ fuel ih =>
    intro i s hz hsz hi
    rw [logging_loop, if_pos hi]
    have h0 : s.logging_buffer.getD i 0 = 0 := getD_zero_of_allzero _ _ hz
    have hov : ¬ budget < s.logged_size_in_bytes +
        s.logging_buffer.getD i 0 * 4 := by
      rw [h0]; omega
    rw [logging_iteration_grow budget i s hov]
    refine ih (i + 1) _ ?_ ?_ ?_
    · intro x hx
      rcases List.mem_append.mp hx with h | h
      · exact hz x h
      · rw [h0] at h; simpa using h
    · dsimp only
      rw [h0]; omega
    · dsimp only
      simp only [List.length_append, List.length_cons, List.length_nil]
      omega

theorem logging_loop_clears (budget : Nat) :
    ∀ (m d i : Nat) (s : LogState),
      budget + 1 - s.logged_size_in_bytes ≤ m →
      s.logged_size_in_bytes ≤ budget →
      (∃ j, i ≤ j ∧ j < s.logging_buffer.length ∧
        0 < s.logging_buffer.getD j 0 ∧ j - i ≤ d) →
      ∃ fuel s', logging_loop budget fuel i s = some s' := by
  intro m
  induction m with
  | zero =>
    intro d i s hm hsz _
    exact absurd hsz (by omega)
  | succ m ihm =>
    intro d
    induction d with
    | zero =>
      intro i s hm hsz hK
      obtain ⟨j, hij, hjl, hjpos, hd⟩ := hK
      have hji : j = i := by omega
      subst hji
      by_cases hov : budget < s.logged_size_in_bytes +
          s.logging_buffer.getD j 0 * 4
      · refine ⟨0 + 1 + 1, ⟨[], 0⟩, ?_⟩
        rw [logging_loop, if_pos hjl, logging_iteration_clear budget j s hov]
        rw [logging_loop, if_neg (by simp)]
      · have hiter := logging_iteration_grow budget j s hov
        have hm' : budget + 1 -
            (logging_iteration budget j s).logged_size_in_bytes ≤ m := by
          rw [hiter]; dsimp only; omega
        have hsz' : (logging_iteration budget j s).logged_size_in_bytes ≤
            budget := by
          rw [hiter]; dsimp only; omega
        have hK' : ∃ j', j + 1 ≤ j' ∧
            j' < (logging_iteration budget j s).logging_buffer.length ∧
            0 < (logging_iteration budget j s).logging_buffer.getD j' 0 ∧
            j' - (j + 1) ≤ s.logging_buffer.length := by
          refine ⟨s.logging_buffer.length, by omega, ?_, ?_, by omega⟩
          · rw [hiter]; dsimp only
            simp only [List.length_append, List.length_cons, List.length_nil]
            omega
          · rw [hiter]; dsimp only
            rw [getD_concat_self]
            exact hjpos
        obtain ⟨fuel, s', hf⟩ := ihm s.logging_buffer.length (j + 1)
          (logging_iteration budget j s) hm' hsz' hK'
        exact ⟨fuel + 1, s', by rw [logging_loop, if_pos hjl]; exact hf⟩
    | succ d ihd =>
      intro i s hm hsz hK
      obtain ⟨j, hij, hjl, hjpos, hd⟩ := hK
      by_cases hdle : j - i ≤ d
      · exact ihd i s hm hsz ⟨j, hij, hjl, hjpos, hdle⟩
      · have hil : i < s.logging_buffer.length := by omega
        by_cases hov : budget < s.logged_size_in_bytes +
            s.logging_buffer.getD i 0 * 4
        · refine ⟨0 + 1 + 1, ⟨[], 0⟩, ?_⟩
          rw [logging_loop, if_pos hil, logging_iteration_clear budget i s hov]
          rw [logging_loop, if_neg (by simp)]
        · have hiter := logging_iteration_grow budget i s hov
          have hsz' : (logging_iteration budget i s).logged_size_in_bytes ≤
              budget := by
            rw [hiter]; dsimp only; omega
          have hK' : ∃ j', i + 1 ≤ j' ∧
              j' < (logging_iteration budget i s).logging_buffer.length ∧
              0 < (logging_iteration budget i s).logging_buffer.getD j' 0 ∧
              j' - (i + 1) ≤ d := by
            refine ⟨j, by omega, ?_, ?_, by omega⟩
            · rw [hiter]; dsimp only
              simp only [List.length_append, List.length_cons, List.length_nil]
              omega
            · rw [hiter]; dsimp only
              rw [List.getD_append _ _ _ _ hjl]
              exact hjpos
          by_cases hz : s.logging_buffer.getD i 0 = 0
          · have hm' : budget + 1 -
                (logging_iteration budget i s).logged_size_in_bytes ≤
                  m + 1 := by
              rw [hiter]; dsimp only; rw [hz]; omega
            obtain ⟨fuel, s', hf⟩ :=
              ihd (i + 1) (logging_iteration budget i s) hm' hsz' hK'
            exact ⟨fuel + 1, s', by rw [logging_loop, if_pos hil]; exact hf⟩
          · have hm' : budget + 1 -
                (logging_iteration budget i s).logged_size_in_bytes ≤ m := by
              rw [hiter]; dsimp only; omega
            obtain ⟨fuel, s', hf⟩ :=
              ihm d (i + 1) (logging_iteration budget i s) hm' hsz' hK'
            exact ⟨fuel + 1, s', by rw [logging_loop, if_pos hil]; exact hf⟩

/-- C9: when the flush `logging()` (schedule.py:97-114) is entered with a
non-empty buffer and a byte counter within the budget (as at every actual
call site, where the counter is 0), the loop — which appends each host copy
to the very list it iterates — terminates, for a sufficient fuel bound, if
and only if some buffered tensor has a positive element count: the counter
then eventually exceeds the budget and the overflow clear ends iteration,
while an all-zero buffer cycles forever.  Whenever the call returns, the
buffer is empty and the byte counter is 0. -/
theorem claim_C9 (budget : Nat) (s : LogState)
    (hne : s.logging_buffer ≠ [])
    (hsz : s.logged_size_in_bytes ≤ budget) :
    ((∃ fuel s', logging_run budget fuel s = some s') ↔
      ∃ x ∈ s.logging_buffer, 0 < x) ∧
    (∀ fuel s', logging_run budget fuel s = some s' →
      s'.logging_buffer = [] ∧ s'.logged_size_in_bytes = 0) := by
  constructor
  · constructor
    · rintro ⟨fuel, s', hf⟩
      by_contra hall
      push_neg at hall
      have hz : ∀ x ∈ s.logging_buffer, x = 0 := fun x hx => by
        have := hall x hx; omega
      have hlen : 0 < s.logging_buffer.length := List.length_pos.mpr hne
      have hn := logging_loop_allzero budget fuel 0 s hz hsz hlen
      unfold logging_run at hf
      rw [hn] at hf
      simp at hf
    · rintro ⟨x, hx, hxpos⟩
      obtain ⟨j, hj, hgd⟩ : ∃ j, j < s.logging_buffer.length ∧
          s.logging_buffer.getD j 0 = x := by
        obtain ⟨i, hi, he⟩ := List.mem_iff_getElem.mp hx
        exact ⟨i, hi, by rw [List.getD_eq_getElem _ _ hi, he]⟩
      obtain ⟨fuel, s', hf⟩ := logging_loop_clears budget (budget + 1) j 0 s
        (by omega) hsz ⟨j, by omega, hj, by rw [hgd]; exact hxpos, by omega⟩
      exact ⟨fuel, { s' with logging_buffer := [] },
        by unfold logging_run; rw [hf]; rfl⟩
  · intro fuel s' hf
    have h := logging_run_terminal budget fuel s s' hne hf
    rw [h]
    exact ⟨rfl, rfl⟩

theorem claim_C9_witness :
    (((∃ fuel s', logging_run 4 fuel ⟨[1], 0⟩ = some s') ↔
      ∃ x ∈ ([1] : List Nat), 0 < x) ∧
    (∀ fuel s', logging_run 4 fuel ⟨[1], 0⟩ = some s' →
      s'.logging_buffer = [] ∧ s'.logged_size_in_bytes = 0)) :=
  claim_C9 4 ⟨[1], 0⟩ (by decide) (by decide)
